import Mathlib

/-!
Verification development for the user identity migration and cascading
deletion engine of the rysy backend (src/functions/userSetup/migration.js).

The document store is modelled as association lists from document ids to
document data; document data is an association list from field names to
JSON-like values.  Blob storage is an association list from paths to blobs.
Queries, batched writes and the primary-record transaction are modelled
with the semantics of the underlying store (Firestore / GCS) at the
granularity the code uses them.
-/

set_option maxHeartbeats 1000000

/-- JSON-like value stored in a document field. -/
inductive JVal where
  | str (s : String)
  | num (n : Int)
  | bool (b : Bool)
  | null
  | arr (xs : List JVal)
  | obj (fs : List (String × JVal))

/-- Document data: the top-level fields of a Firestore document. -/
abbrev DocData := List (String × JVal)

/-- A collection: association list from document id to document data.
Kept in Firestore's default (document-id) order, which the unordered
queries of the code return. -/
abbrev Collection := List (String × DocData)

/-- Association-list lookup (first binding wins, as in a JS object / Map). -/
def alGet {α : Type} : List (String × α) → String → Option α
  | [], _ => none
  | (k, v) :: rest, f => if k = f then some v else alGet rest f

/-- Association-list update: replace the first binding in place, else append
(JS object / Map insertion-order semantics; Firestore set() semantics). -/
def alSet {α : Type} : List (String × α) → String → α → List (String × α)
  | [], f, v => [(f, v)]
  | (k, w) :: rest, f, v =>
    if k = f then (f, v) :: rest else (k, w) :: alSet rest f v

/-- Association-list delete: remove every binding of the key. -/
def alDel {α : Type} (l : List (String × α)) (k : String) : List (String × α) :=
  l.filter (fun e => e.1 != k)

/-- `getF d f`: read top-level field `f` of a document. -/
def getF (d : DocData) (f : String) : Option JVal := alGet d f

/-- `setF d f v`: write top-level field `f` (JS object spread semantics). -/
def setF (d : DocData) (f : String) (v : JVal) : DocData := alSet d f v

/-- Firestore `update(ref, fields)`: merge the given top-level fields into
the current document data.  (All update objects the code builds use
top-level field names only.) -/
def applyF (d : DocData) (fields : DocData) : DocData :=
  fields.foldl (fun acc e => setF acc e.1 e.2) d

/-- Does field `f` of `d` hold exactly the string `v`?  This is the
semantics of a Firestore `where(f, "==", v)` equality filter for a string
operand. -/
def isStrField (d : DocData) (f v : String) : Bool :=
  match getF d f with
  | some (JVal.str s) => s = v
  | _ => false

/-- Leftmost-scan substring search over character lists. -/
def listContains (pat : List Char) : List Char → Bool
  | [] => pat.isPrefixOf []
  | c :: rest => pat.isPrefixOf (c :: rest) || listContains pat rest

/-- Leftmost, non-overlapping replacement of `pat` by `rep`, fuelled by the
input length so that the recursion is structural (each step consumes at
least one character when `pat` is non-empty). -/
def replaceFuel (pat rep : List Char) : Nat → List Char → List Char
  | 0, s => s
  | _ + 1, [] => []
  | fuel + 1, c :: rest =>
    if pat.isPrefixOf (c :: rest) then
      rep ++ replaceFuel pat rep fuel (List.drop (pat.length - 1) rest)
    else c :: replaceFuel pat rep fuel rest

/-- JS `s.split(old).join(new)` for a non-empty pattern `old`: replace
every leftmost, non-overlapping occurrence of `old` in `s` by `new`.
The `old = ""` branch is unreachable in the engine (the resolved user id
is a non-empty Firestore document id) and is modelled as the identity. -/
def jsReplaceAll (old new s : String) : String :=
  if old = "" then s
  else String.mk (replaceFuel old.data new.data s.data.length s.data)

/-- JS `s.includes(old)`: substring occurrence test.  `includes("")` is
`true` in JS. -/
def jsIncludes (s old : String) : Bool :=
  if old = "" then true else listContains old.data s.data

/-- JS `s.trim()`: strip whitespace from both ends. -/
def jsTrim (s : String) : String :=
  String.mk (((s.data.dropWhile Char.isWhitespace).reverse.dropWhile
    Char.isWhitespace).reverse)

/-- urlMap: ephemeral old locator → new locator mapping (a JS `Map`). -/
abbrev UrlMap := List (String × String)

/-- JS `Map.get`. -/
def mapGet (m : UrlMap) (k : String) : Option String := alGet m k

/-- JS `Map.set`. -/
def mapSet (m : UrlMap) (k v : String) : UrlMap := alSet m k v

/-- One `entries` array element of `buildUpdateObject` (migration.js,
the body of the `originalData.entries.map` callback): rewrite the
element's `imageUrl` — first by exact urlMap lookup, then by literal
substring substitution of the old user id — and report whether the
element changed.  Non-object elements are returned unchanged (in JS an
array element would be spread into an index-keyed object, but analysis
entries are always plain objects). -/
def updateEntryBU (oldUserId newUserId : String) (urlMap : UrlMap)
    (entry : JVal) : JVal × Bool :=
  match entry with
  | JVal.obj fs =>
    match alGet fs "imageUrl" with
    | some (JVal.str u) =>
      if u = "" then (JVal.obj fs, false)
      else
        match mapGet urlMap u with
        | some newUrl => (JVal.obj (alSet fs "imageUrl" (JVal.str newUrl)), true)
        | none =>
          if jsIncludes u oldUserId then
            (JVal.obj (alSet fs "imageUrl" (JVal.str (jsReplaceAll oldUserId newUserId u))), true)
          else (JVal.obj fs, false)
    | _ => (JVal.obj fs, false)
  | e => (e, false)

/-- `buildUpdateObject` (migration.js lines 251-352): the sparse patch for
one dependent record.  Always contains `userId = newUserId`; contains the
whole rewritten `entries` array when some element's `imageUrl` changed;
contains a rewritten top-level `imageUrl` when that field changed. -/
def buildUpdateObject (originalData : DocData) (oldUserId newUserId : String)
    (urlMap : UrlMap) : DocData :=
  let updateFields : DocData := [("userId", JVal.str newUserId)]
  let updateFields :=
    match getF originalData "entries" with
    | some (JVal.arr es) =>
      let mapped := es.map (updateEntryBU oldUserId newUserId urlMap)
      if mapped.any (fun p => p.2) then
        updateFields ++ [("entries", JVal.arr (mapped.map (fun p => p.1)))]
      else updateFields
    | _ => updateFields
  match getF originalData "imageUrl" with
  | some (JVal.str u) =>
    if u = "" then updateFields
    else
      match mapGet urlMap u with
      | some newUrl => updateFields ++ [("imageUrl", JVal.str newUrl)]
      | none =>
        if jsIncludes u oldUserId then
          updateFields ++ [("imageUrl", JVal.str (jsReplaceAll oldUserId newUserId u))]
        else updateFields
  | _ => updateFields

/-! ### Derived patch parts and witness fixtures -/

/-- The `entries` binding the patch may carry (spec-side restatement of the
entries branch of `buildUpdateObject`, used only to state lemmas). -/
def buEntriesPart (d : DocData) (o n : String) (m : UrlMap) : DocData :=
  match getF d "entries" with
  | some (JVal.arr es) =>
    let mapped := es.map (updateEntryBU o n m)
    if mapped.any (fun p => p.2) then
      [("entries", JVal.arr (mapped.map (fun p => p.1)))]
    else []
  | _ => []

/-- The `imageUrl` binding the patch may carry (spec-side restatement of the
top-level imageUrl branch of `buildUpdateObject`). -/
def buImagePart (d : DocData) (o n : String) (m : UrlMap) : DocData :=
  match getF d "imageUrl" with
  | some (JVal.str u) =>
    if u = "" then []
    else
      match mapGet m u with
      | some newUrl => [("imageUrl", JVal.str newUrl)]
      | none =>
        if jsIncludes u o then [("imageUrl", JVal.str (jsReplaceAll o n u))] else []
  | _ => []

/-- Concrete dependent record for the C4 witness: a meal-analysis style
document with a top-level imageUrl and one entries element. -/
def docW4 : DocData :=
  [("userId", JVal.str "g1"),
   ("imageUrl", JVal.str "selfies/g1/a.jpg"),
   ("entries", JVal.arr [JVal.obj [("imageUrl", JVal.str "meals/g1/b.jpg")]])]

/-- Concrete ReferenceMap for the C4 witness. -/
def mapW4 : UrlMap := [("selfies/g1/a.jpg", "NEWURL")]

/-- Record with a reference field nested one object deep, for the C5
counterexample. -/
def docW5 : DocData :=
  [("userId", JVal.str "g1"),
   ("profile", JVal.obj [("imageUrl", JVal.str "selfies/g1/a.jpg")])]

/-- ReferenceMap holding exactly the nested reference value. -/
def mapW5 : UrlMap := [("selfies/g1/a.jpg", "NEWURL")]

/-- Record with a top-level entries array for the C5 witness. -/
def docW5e : DocData :=
  [("userId", JVal.str "g1"),
   ("entries", JVal.arr [JVal.obj [("imageUrl", JVal.str "x/g1/y")]])]

/-! ### Store model: collections, storage, URLs -/

/-- Collection names touched by the engine (migration.js line 10). -/
def COLLECTIONS : List String :=
  ["users", "daily_tasks", "face-analysis", "meal-analysis", "videos"]

/-- Blob-storage folders partitioned by user id (migration.js line 11). -/
def STORAGE_FOLDERS : List String := ["selfies", "meals"]

/-- Secondary identity field of the primary record (migration.js line 12). -/
def USERS_ID_FIELD : String := "id"

/-- Dependent collections retagged by migration (migration.js line 357). -/
def SUBCOLLECTIONS_BY_USER_ID : List String :=
  ["daily_tasks", "face-analysis", "meal-analysis", "videos"]

/-- Dependent collections purged by deletion (migration.js lines 870-877). -/
def COLLECTIONS_TO_CLEAN : List String :=
  ["daily_tasks", "face-analysis", "meal-analysis", "videos", "reel_progress", "reels"]

/-- A stored blob: its content and the optional download token carried in
its `firebaseStorageDownloadTokens` metadata. -/
structure Blob where
  data : String
  token : Option String
deriving DecidableEq

/-- Blob storage: association list from object path to blob, kept in the
lexicographic name order that `bucket.getFiles` returns. -/
abbrev Storage := List (String × Blob)

/-- Bool string-prefix test (the semantics of `getFiles({prefix})`). -/
def strHasPfx (p s : String) : Bool := p.data.isPrefixOf s.data

/-- The deployment bucket name (migration.js line 16 example). -/
def modelBucketName : String := "rysy-dev.firebasestorage.app"

/-- Hex digit (uppercase), for percent-encoding. -/
def hexDigitChar (n : Nat) : Char :=
  if n < 10 then Char.ofNat (48 + n) else Char.ofNat (55 + n)

/-- UTF-8 bytes of a character. -/
def utf8Bytes (c : Char) : List Nat :=
  let n := c.toNat
  if n < 128 then [n]
  else if n < 2048 then [192 + n / 64, 128 + n % 64]
  else if n < 65536 then [224 + n / 4096, 128 + (n / 64) % 64, 128 + n % 64]
  else [240 + n / 262144, 128 + (n / 4096) % 64, 128 + (n / 64) % 64, 128 + n % 64]

/-- Characters `encodeURIComponent` leaves unescaped. -/
def isUnreservedURIChar (c : Char) : Bool :=
  c.isAlphanum || c = '-' || c = '_' || c = '.' || c = '!' || c = '~' ||
    c = '*' || c = Char.ofNat 39 || c = '(' || c = ')'

/-- JS `encodeURIComponent`. -/
def encodeURIComponentJs (s : String) : String :=
  String.mk (s.data.foldr (fun c acc =>
    (if isUnreservedURIChar c then [c]
     else (utf8Bytes c).foldr (fun b acc2 =>
       '%' :: hexDigitChar (b / 16) :: hexDigitChar (b % 16) :: acc2) []) ++ acc) [])

/-- `buildDownloadUrl` (migration.js lines 21-24).  The source's trailing
`.replace(/%2F/g, "%2F")` is the identity and is omitted. -/
def buildDownloadUrl (bucketNameArg path token : String) : String :=
  "https://firebasestorage.googleapis.com/v0/b/" ++ bucketNameArg ++ "/o/" ++
    encodeURIComponentJs path ++ "?alt=media&token=" ++ token

/-- Hex digit value (0 for non-hex, which a valid URL never produces). -/
def hexVal (c : Char) : Nat :=
  if 48 ≤ c.toNat ∧ c.toNat ≤ 57 then c.toNat - 48
  else if 65 ≤ c.toNat ∧ c.toNat ≤ 70 then c.toNat - 55
  else if 97 ≤ c.toNat ∧ c.toNat ≤ 102 then c.toNat - 87
  else 0

/-- Percent-decoding of a character list (exact for the ASCII paths this
system stores; multi-byte escape runs decode bytewise). -/
def percentDecode : List Char → List Char
  | [] => []
  | '%' :: h1 :: h2 :: rest => Char.ofNat (16 * hexVal h1 + hexVal h2) :: percentDecode rest
  | c :: rest => c :: percentDecode rest

/-- JS `decodeURIComponent` as used on storage object paths. -/
def decodeURIComponentJs (s : String) : String := String.mk (percentDecode s.data)

/-- Split a character list at the first occurrence of `marker`, returning
the parts before and after it. -/
def splitFirst (marker : List Char) : List Char → Option (List Char × List Char)
  | [] => if marker.isPrefixOf [] then some ([], []) else none
  | c :: rest =>
    if marker.isPrefixOf (c :: rest) then some ([], List.drop marker.length (c :: rest))
    else
      match splitFirst marker rest with
      | some pq => some (c :: pq.1, pq.2)
      | none => none

/-- The URL pattern match of `deleteStorageFileFromUrl` (migration.js line
758): `firebasestorage.googleapis.com/v0/b/([^/]+)/o/([^?]+)` anywhere in
the URL; returns the bucket and the decoded object path. -/
def parseStorageUrl (url : String) : Option (String × String) :=
  match splitFirst ("firebasestorage.googleapis.com/v0/b/".data) url.data with
  | none => none
  | some pq =>
    let rest := pq.2
    let bucket := rest.takeWhile (fun c => c != '/')
    if bucket.isEmpty then none
    else
      let rest2 := rest.drop bucket.length
      if ("/o/".data).isPrefixOf rest2 then
        let path := (rest2.drop 3).takeWhile (fun c => c != '?')
        if path.isEmpty then none
        else some (String.mk bucket, decodeURIComponentJs (String.mk path))
      else none

/-! ### ObjectMirror: copyStorageFolder / copyStorageForUser -/

/-- State threaded through one folder copy: the evolving storage, the
folder-local urlMap, the token-generator counter, the number of storage
writes performed, and whether an exception aborted the folder. -/
structure FolderSt where
  storage : Storage
  urlMap : UrlMap
  ctr : Nat
  writes : Nat
  errored : Bool

/-- The file loop of `copyStorageFolder` (migration.js lines 55-145) over
the snapshot of object names listed under the prefix.  Each file is
copied to the destination path (the copy duplicates content and
metadata); when the destination carries no token one is generated and
written; the old URL (when the source had a token), and always the old
path, are mapped to the new URL.  A missing source (impossible from a
fresh listing) models the copy throwing, which aborts the folder. -/
def copyFolderLoop (bucketNameArg folder newU : String) (gen : Nat → String)
    (pfx : String) : List String → FolderSt → FolderSt
  | [], st => st
  | name :: rest, st =>
    if name = "" || name = pfx then
      copyFolderLoop bucketNameArg folder newU gen pfx rest st
    else
      let fileName := String.mk (name.data.drop pfx.data.length)
      if fileName = "" then copyFolderLoop bucketNameArg folder newU gen pfx rest st
      else
        let oldUrl :=
          match alGet st.storage name with
          | some b =>
            match b.token with
            | some t => buildDownloadUrl bucketNameArg name t
            | none => ""
          | none => ""
        let newPath := folder ++ "/" ++ newU ++ "/" ++ fileName
        match alGet st.storage name with
        | none => { st with errored := true }
        | some srcBlob =>
          match srcBlob.token with
          | some t =>
            let st1 := alSet st.storage newPath srcBlob
            let newUrl := buildDownloadUrl bucketNameArg newPath t
            let um1 := if oldUrl != "" then mapSet st.urlMap oldUrl newUrl else st.urlMap
            copyFolderLoop bucketNameArg folder newU gen pfx rest
              { storage := st1, urlMap := mapSet um1 name newUrl,
                ctr := st.ctr, writes := st.writes + 1, errored := false }
          | none =>
            let tok := gen st.ctr
            let st2 := alSet (alSet st.storage newPath srcBlob) newPath
              { srcBlob with token := some tok }
            let newUrl := buildDownloadUrl bucketNameArg newPath tok
            let um1 := if oldUrl != "" then mapSet st.urlMap oldUrl newUrl else st.urlMap
            copyFolderLoop bucketNameArg folder newU gen pfx rest
              { storage := st2, urlMap := mapSet um1 name newUrl,
                ctr := st.ctr + 1, writes := st.writes + 2, errored := false }

/-- `copyStorageFolder` (migration.js lines 36-154): list the objects
under `folder/oldU/`, then run the file loop over that snapshot. -/
def copyStorageFolder (bucketNameArg folder oldU newU : String) (gen : Nat → String)
    (storage : Storage) (ctr : Nat) : FolderSt :=
  let pfx := folder ++ "/" ++ oldU ++ "/"
  let files := (storage.filter (fun e => strHasPfx pfx e.1)).map (fun e => e.1)
  copyFolderLoop bucketNameArg folder newU gen pfx files
    { storage := storage, urlMap := [], ctr := ctr, writes := 0, errored := false }

/-- Result of the whole mirror step. -/
structure CopyOut where
  urlMap : UrlMap
  storage : Storage
  ctr : Nat
  writes : Nat

/-- `copyStorageForUser` (migration.js lines 163-211): copy both folders;
a folder that errored contributes its already-performed writes but no
urlMap entries (its exception is caught and logged). -/
def copyStorageForUser (oldU newU : String) (gen : Nat → String)
    (storage : Storage) : CopyOut :=
  STORAGE_FOLDERS.foldl (fun acc folder =>
    let fs := copyStorageFolder modelBucketName folder oldU newU gen acc.storage acc.ctr
    if fs.errored then
      { urlMap := acc.urlMap, storage := fs.storage, ctr := fs.ctr,
        writes := acc.writes + fs.writes }
    else
      { urlMap := fs.urlMap.foldl (fun m e => mapSet m e.1 e.2) acc.urlMap,
        storage := fs.storage, ctr := fs.ctr, writes := acc.writes + fs.writes })
    { urlMap := [], storage := storage, ctr := 0, writes := 0 }

/-! ### IdentityResolver: findUserDocToMigrate -/

/-- `findUserDocToMigrate` (migration.js lines 368-449): direct key lookup
first (skipped when the old id is empty or equals the new id), then an
`id`-field equality query limited to one result; a field match whose key
already equals the new id is reported as nothing to migrate. -/
def findUserDocToMigrate (users : Collection) (oldUserId newUserId : String) :
    Option (String × DocData) :=
  let shouldSearchByDocId :=
    oldUserId != "" && jsTrim oldUserId != "" && oldUserId != newUserId
  let byDocId : Option (String × DocData) :=
    if shouldSearchByDocId then
      match alGet users oldUserId with
      | some d => some (oldUserId, d)
      | none => none
    else none
  match byDocId with
  | some r => some r
  | none =>
    let searchValue :=
      if oldUserId != "" && jsTrim oldUserId != "" then oldUserId else newUserId
    match (users.filter (fun e => isStrField e.2 USERS_ID_FIELD searchValue)).head? with
    | some kd => if kd.1 != newUserId then some kd else none
    | none => none

/-! ### MigrationOrchestrator: migrateUser -/

/-- The whole document database: the primary `users` collection, the
dependent collections by name, and blob storage. -/
structure DB where
  users : Collection
  colls : List (String × Collection)
  storage : Storage

/-- Read a dependent collection (absent collections are empty). -/
def getColl (db : DB) (c : String) : Collection := (alGet db.colls c).getD []

/-- Write back a dependent collection. -/
def setCollD (db : DB) (c : String) (coll : Collection) : DB :=
  { db with colls := alSet db.colls c coll }

/-- Firestore `batch.update(ref, fields)` applied at commit time: merge
the queued fields into the document at that key. -/
def updateDocIn (coll : Collection) (k : String) (fields : DocData) : Collection :=
  coll.map (fun e => if e.1 = k then (e.1, applyF e.2 fields) else e)

/-- Outcome of `migrateUser`: the JS result object plus the final store
state, the number of storage/document writes performed, and the sizes of
the batched commits issued by the dependent-collection fan-out. -/
structure MigOut where
  ok : Bool
  error : Option String
  db : DB
  writes : Nat
  commits : List Nat

/-- One dependent collection of the migration fan-out (migration.js lines
574-641): query by ownership tag, queue one `update` per matching
document with the patch built from its snapshot data, and commit the
whole batch at once. -/
def migrateCollStep (actualOld newT : String) (um : UrlMap)
    (acc : DB × Nat × List Nat) (collName : String) : DB × Nat × List Nat :=
  let coll := getColl acc.1 collName
  let snapshot := coll.filter (fun e => isStrField e.2 "userId" actualOld)
  if snapshot.isEmpty then acc
  else
    let coll2 := snapshot.foldl
      (fun c e => updateDocIn c e.1 (buildUpdateObject e.2 actualOld newT um)) coll
    (setCollD acc.1 collName coll2, acc.2.1 + snapshot.length,
      acc.2.2 ++ [snapshot.length])

/-- `migrateUser` (migration.js lines 462-650): validate the new id,
resolve the document to migrate, mirror storage, swap the primary record
inside a transaction guarded against re-entry, then retag the dependent
collections. -/
def migrateUser (oldUserId newUserId : String) (gen : Nat → String) (db : DB) :
    MigOut :=
  if newUserId = "" || jsTrim newUserId = "" then
    { ok := false, error := some "newUserId is required", db := db,
      writes := 0, commits := [] }
  else
    let newT := jsTrim newUserId
    let oldT := jsTrim oldUserId
    match findUserDocToMigrate db.users (if oldT = "" then newT else oldT) newT with
    | none => { ok := true, error := none, db := db, writes := 0, commits := [] }
    | some found =>
      let actualOld := found.1
      let userData := found.2
      if actualOld = newT then
        { ok := true, error := none, db := db, writes := 0, commits := [] }
      else
        let cs := copyStorageForUser actualOld newT gen db.storage
        let merged := setF userData USERS_ID_FIELD (JVal.str newT)
        let swap :=
          match alGet db.users actualOld with
          | none => (db.users, 0)
          | some _ =>
            match alGet db.users newT with
            | some nd =>
              if isStrField nd USERS_ID_FIELD newT then (db.users, 0)
              else (alDel (alSet db.users newT merged) actualOld, 2)
            | none => (alDel (alSet db.users newT merged) actualOld, 2)
        let db1 : DB := { users := swap.1, colls := db.colls, storage := cs.storage }
        let r := SUBCOLLECTIONS_BY_USER_ID.foldl
          (migrateCollStep actualOld newT cs.urlMap) (db1, 0, [])
        { ok := true, error := none, db := r.1,
          writes := cs.writes + swap.2 + r.2.1, commits := r.2.2 }

/-! ### DeletionOrchestrator: deleteUser -/

/-- The batched delete loop of `deleteUser` (migration.js lines 899-924):
queue deletes on one `WriteBatch`, committing whenever 500 operations
accumulate.  The source keeps queueing on the same batch object after a
commit; Firestore then throws `Cannot modify a WriteBatch that has been
committed.` on the next queued operation, so more than 500 matches abort
the collection with that error (writes committed so far stand). -/
def deleteCollGo : List String → Collection → List String → Nat → Bool →
    Collection × Option String
  | [], c, pending, cnt, _ =>
    if cnt > 0 then (pending.foldl alDel c, none) else (c, none)
  | _ :: _, c, _, _, true =>
    (c, some "Cannot modify a WriteBatch that has been committed.")
  | k :: rest, c, pending, cnt, false =>
    if cnt + 1 >= 500 then deleteCollGo rest ((pending ++ [k]).foldl alDel c) [] 0 true
    else deleteCollGo rest c (pending ++ [k]) (cnt + 1) false

/-- The collection loop of `deleteUser` (migration.js lines 879-931):
per collection, query by ownership tag, delete matches (empty snapshots
record a zero count), and record the per-collection count after the
commits succeed.  An exception stops the loop and propagates with the
partially-updated store and the counts recorded so far. -/
def delCollLoop (uid : String) : List String → DB → List (String × Nat) →
    DB × List (String × Nat) × Option String
  | [], db, counts => (db, counts, none)
  | c :: rest, db, counts =>
    let coll := getColl db c
    let snap := coll.filter (fun e => isStrField e.2 "userId" uid)
    if snap.isEmpty then delCollLoop uid rest db (counts ++ [(c, 0)])
    else
      match deleteCollGo (snap.map (fun e => e.1)) coll [] 0 false with
      | (c2, some msg) => (setCollD db c c2, counts, some msg)
      | (c2, none) => delCollLoop uid rest (setCollD db c c2) (counts ++ [(c, snap.length)])

/-- `deleteStorageForUser` (migration.js lines 657-745): delete every blob
under `selfies/uid/` and `meals/uid/`, counting deletions. -/
def deleteStorageForUser (uid : String) (st : Storage) : Storage × Nat :=
  STORAGE_FOLDERS.foldl (fun acc folder =>
    let pfx := folder ++ "/" ++ uid ++ "/"
    let files := acc.1.filter (fun e => strHasPfx pfx e.1)
    (acc.1.filter (fun e => !strHasPfx pfx e.1), acc.2 + files.length)) (st, 0)

/-- `deleteStorageFileFromUrl` (migration.js lines 752-802): if the URL
matches the storage pattern and the blob exists, delete it; all failure
modes return with no effect. -/
def deleteStorageFileFromUrl (url : String) (st : Storage) : Storage :=
  if url = "" then st
  else
    match parseStorageUrl url with
    | none => st
    | some bp =>
      match alGet st bp.2 with
      | none => st
      | some _ => alDel st bp.2

/-- Outcome of `deleteUser`: the JS result object (ok/error and the
`deleted` counters in recording order) plus the final store state. -/
structure DelOut where
  ok : Bool
  error : Option String
  usersDeleted : Nat
  collCounts : List (String × Nat)
  storageDeleted : Nat
  db : DB

/-- The tail of `deleteUser` after validation and primary-record
resolution (migration.js lines 858-958): purge the dependent collections;
on success delete the primary record and the two storage folders, else
report the collection-loop exception with the counts recorded so far. -/
def delTail (uid : String) (db1 : DB) (userRef : Option (String × DocData)) :
    DelOut :=
  match delCollLoop uid COLLECTIONS_TO_CLEAN db1 [] with
  | (db2, counts, some msg) =>
    { ok := false, error := some msg, usersDeleted := 0, collCounts := counts,
      storageDeleted := 0, db := db2 }
  | (db2, counts, none) =>
    let users3 :=
      match userRef with
      | some kd => alDel db2.users kd.1
      | none => db2.users
    let usersDel :=
      match userRef with
      | some _ => 1
      | none => 0
    let sr := deleteStorageForUser uid db2.storage
    { ok := true, error := none, usersDeleted := usersDel, collCounts := counts,
      storageDeleted := sr.2,
      db := { users := users3, colls := db2.colls, storage := sr.1 } }

/-- `deleteUser` (migration.js lines 810-968): validate, locate the
primary record (by key, then by `id` field limited to one), delete its
`imageForAiUrl` blob, purge the dependent collections, delete the primary
record, then delete the blobs under both folder prefixes.  An exception
in the collection loop is caught at the boundary and reported with the
counters accumulated so far. -/
def deleteUser (userId : String) (db0 : DB) : DelOut :=
  if userId = "" || jsTrim userId = "" then
    { ok := false, error := some "userId is required", usersDeleted := 0,
      collCounts := [], storageDeleted := 0, db := db0 }
  else
    let uid := jsTrim userId
    let userRef : Option (String × DocData) :=
      match alGet db0.users uid with
      | some d => some (uid, d)
      | none => (db0.users.filter (fun e => isStrField e.2 USERS_ID_FIELD uid)).head?
    let st1 :=
      match userRef with
      | some kd =>
        match getF kd.2 "imageForAiUrl" with
        | some (JVal.str u) =>
          if u = "" then db0.storage else deleteStorageFileFromUrl u db0.storage
        | _ => db0.storage
      | none => db0.storage
    delTail uid { db0 with storage := st1 } userRef

/-- Shared deterministic download-token supply for concrete runs. -/
def genW : Nat → String := fun i => "tok" ++ toString i

/-- Users collection for C7: the only record sits at the key the
migration is targeting, while its `id` field still carries the old id. -/
def usersC7 : Collection := [("a1", [("id", JVal.str "g1")])]

/-- Database for the C7 witness. -/
def dbW7 : DB := { users := usersC7, colls := [], storage := [] }

/-- Database for the C1 counterexample: the old record exists, and an
already-migrated record sits at the new key. -/
def dbC1x : DB :=
  { users := [("g1", [("id", JVal.str "g1")]), ("a1", [("id", JVal.str "a1")])],
    colls := [], storage := [] }

/-- Database for the C1 witness: one primary record at the old key. -/
def dbW1 : DB :=
  { users := [("g1", [("id", JVal.str "g1"), ("email", JVal.str "e")])],
    colls := [], storage := [] }

/-- `n` dependent records all tagged with the old user id. -/
def mkDepDocs (n : Nat) : Collection :=
  (List.range n).map (fun i => ("t" ++ toString i, [("userId", JVal.str "g1")]))

/-- Database with one primary record and `n` matching dependent records
in the `videos` collection. -/
def dbC6 (n : Nat) : DB :=
  { users := [("g1", [("id", JVal.str "g1")])],
    colls := [("videos", mkDepDocs n)], storage := [] }

/-- The C6 database after the storage mirror and the primary swap. -/
def dbC6mid (n : Nat) : DB :=
  { users := [("a1", [("id", JVal.str "a1")])],
    colls := [("videos", mkDepDocs n)], storage := [] }

/-- Database for the C9 counterexample: two records carry the same `id`
field, so the resolver finds a second carrier after the first delete. -/
def dbC9x : DB :=
  { users := [("a", [("id", JVal.str "u1")]), ("b", [("id", JVal.str "u1")])],
    colls := [], storage := [] }

/-- Database for the C9 witness: the fully empty state. -/
def dbW9 : DB := { users := [], colls := [], storage := [] }

/-- Database for the C10 witness: a deletable dependent collection
followed by one whose matches overflow the 500-operation batch. -/
def dbC10 : DB :=
  { users := [],
    colls := [("daily_tasks", mkDepDocs 1), ("face-analysis", mkDepDocs 501)],
    storage := [] }

/-- The effect of one fan-out step on its own collection (spec-side
restatement of `migrateCollStep`, used to state lemmas). -/
def collBatchResult (ao nt : String) (um : UrlMap) (coll : Collection) : Collection :=
  let snap := coll.filter (fun e => isStrField e.2 "userId" ao)
  if snap.isEmpty then coll
  else snap.foldl (fun c e => updateDocIn c e.1 (buildUpdateObject e.2 ao nt um)) coll

/-- The per-entry residue of a committed batch: the updates of the queued
snapshot documents whose key matches, applied in order. -/
def perEntryFold (ao nt : String) (um : UrlMap) (snap : List (String × DocData))
    (e0 : String × DocData) : String × DocData :=
  snap.foldl (fun cur x =>
    if cur.1 = x.1 then (cur.1, applyF cur.2 (buildUpdateObject x.2 ao nt um)) else cur) e0

/-- Database for the C3 witness: one primary record, one matching and one
non-matching dependent record. -/
def dbW3 : DB :=
  { users := [("g1", [("id", JVal.str "g1")])],
    colls := [("daily_tasks", [("t1", [("userId", JVal.str "g1")]),
                               ("t2", [("userId", JVal.str "zz")])])],
    storage := [] }

/-- The id-scoped storage path prefix `folder/userId/`. -/
def storagePfx (folder u : String) : String := folder ++ "/" ++ u ++ "/"

/-- Neither string is a character-level prefix of the other. -/
def PrefixFree (a b : String) : Prop :=
  a.data.isPrefixOf b.data = false ∧ b.data.isPrefixOf a.data = false

/-- The destination prefixes of a mirror run never collide with the
source prefixes (true for any two distinct slash-free user ids). -/
def prefixesDisjoint (oldU newU : String) : Prop :=
  ∀ f1 ∈ STORAGE_FOLDERS, ∀ f2 ∈ STORAGE_FOLDERS,
    PrefixFree (storagePfx f1 newU) (storagePfx f2 oldU)

instance (oldU newU : String) : Decidable (prefixesDisjoint oldU newU) := by
  unfold prefixesDisjoint PrefixFree
  infer_instance

/-- One blob under the old selfies prefix, for the C8 witness. -/
def stW8 : Storage := [("selfies/g1/a.jpg", { data := "img", token := some "t0" })]

/-- Database for the C2 counterexample: two primary records both carry
the old id in their id field; one dependent record is tagged with the
second record's key. -/
def dbC2x : DB :=
  { users := [("k1", [("id", JVal.str "old")]), ("k2", [("id", JVal.str "old")])],
    colls := [("daily_tasks", [("t1", [("userId", JVal.str "k2")])])],
    storage := [] }

/-- Database for the C2 witness. -/
def dbW2 : DB :=
  { users := [("g1", [("id", JVal.str "g1")])],
    colls := [("daily_tasks", [("t1", [("userId", JVal.str "g1")])])],
    storage := [] }

/-! ### Association-list lemmas -/

theorem alGet_alSet_self {α : Type} (l : List (String × α)) (k : String) (v : α) :
    alGet (alSet l k v) k = some v := by
  induction l with
  | nil => simp [alSet, alGet]
  | cons e rest ih =>
    obtain ⟨a, b⟩ := e
    by_cases h : a = k
    · simp [alSet, h, alGet]
    · simp [alSet, h, alGet, ih]

theorem alGet_alSet_ne {α : Type} (l : List (String × α)) (k k' : String) (v : α)
    (h : k' ≠ k) : alGet (alSet l k v) k' = alGet l k' := by
  have hkk : ¬k = k' := fun hh => h hh.symm
  induction l with
  | nil => simp [alSet, alGet, hkk]
  | cons e rest ih =>
    obtain ⟨a, b⟩ := e
    by_cases he : a = k
    · subst he
      simp [alSet, alGet, hkk]
    · simp only [alSet, he, if_false, alGet]
      by_cases he' : a = k'
      · simp [he']
      · simp [he', ih]

theorem alGet_alDel_self {α : Type} (l : List (String × α)) (k : String) :
    alGet (alDel l k) k = none := by
  induction l with
  | nil => simp [alDel, alGet]
  | cons e rest ih =>
    obtain ⟨a, b⟩ := e
    by_cases h : a = k
    · simpa [alDel, List.filter_cons, h] using ih
    · simpa [alDel, List.filter_cons, alGet, h] using ih

theorem alGet_alDel_ne {α : Type} (l : List (String × α)) (k k' : String)
    (h : k' ≠ k) : alGet (alDel l k) k' = alGet l k' := by
  induction l with
  | nil => simp [alDel, alGet]
  | cons e rest ih =>
    obtain ⟨a, b⟩ := e
    by_cases he : a = k
    · have ha : ¬a = k' := by rw [he]; exact fun hh => h hh.symm
      have h1 : alDel ((a, b) :: rest) k = alDel rest k := by
        simp [alDel, List.filter_cons, he]
      rw [h1, ih]
      simp [alGet, ha]
    · have h1 : alDel ((a, b) :: rest) k = (a, b) :: alDel rest k := by
        simp [alDel, List.filter_cons, he]
      rw [h1]
      by_cases he' : a = k'
      · simp [alGet, he']
      · simp [alGet, he', ih]

theorem mem_alDel {α : Type} (l : List (String × α)) (k : String) (e : String × α) :
    e ∈ alDel l k ↔ e ∈ l ∧ e.1 ≠ k := by
  simp [alDel, List.mem_filter, bne_iff_ne]

theorem alGet_eq_none_iff {α : Type} (l : List (String × α)) (k : String) :
    alGet l k = none ↔ ∀ e ∈ l, e.1 ≠ k := by
  induction l with
  | nil => simp [alGet]
  | cons e rest ih =>
    obtain ⟨a, b⟩ := e
    by_cases h : a = k
    · simp [alGet, h]
    · simp [alGet, h, ih]

theorem alGet_mem {α : Type} (l : List (String × α)) (k : String) (v : α)
    (h : alGet l k = some v) : (k, v) ∈ l := by
  induction l with
  | nil => simp [alGet] at h
  | cons e rest ih =>
    obtain ⟨a, b⟩ := e
    by_cases he : a = k
    · simp [alGet, he] at h
      simp [he, h]
    · simp [alGet, he] at h
      exact List.mem_cons_of_mem _ (ih h)

theorem alGet_of_mem_nodup {α : Type} (l : List (String × α)) (k : String) (v : α)
    (hnd : (l.map (fun e => e.1)).Nodup) (h : (k, v) ∈ l) : alGet l k = some v := by
  induction l with
  | nil => simp at h
  | cons e rest ih =>
    obtain ⟨a, b⟩ := e
    simp only [List.map_cons, List.nodup_cons] at hnd
    rcases List.mem_cons.mp h with h1 | h1
    · have ha : a = k := by cases h1; rfl
      have hb : b = v := by cases h1; rfl
      simp [alGet, ha, hb]
    · have hne : ¬a = k := by
        intro hk
        exact hnd.1 (hk ▸ (List.mem_map.mpr ⟨(k, v), h1, rfl⟩))
      simp only [alGet, hne, if_false]
      exact ih hnd.2 h1

theorem alSet_of_not_mem {α : Type} (l : List (String × α)) (k : String) (v : α)
    (h : alGet l k = none) : alSet l k v = l ++ [(k, v)] := by
  induction l with
  | nil => simp [alSet]
  | cons e rest ih =>
    obtain ⟨a, b⟩ := e
    by_cases he : a = k
    · simp [alGet, he] at h
    · simp [alGet, he] at h
      simp [alSet, he, ih h]

theorem alGet_append {α : Type} (l1 l2 : List (String × α)) (k : String) :
    alGet (l1 ++ l2) k =
      match alGet l1 k with
      | some v => some v
      | none => alGet l2 k := by
  induction l1 with
  | nil => simp [alGet]
  | cons e rest ih =>
    obtain ⟨a, b⟩ := e
    by_cases he : a = k
    · simp [alGet, he]
    · simp [alGet, he, ih]

/-! ### Reduction lemmas for buildUpdateObject -/

/-- The patch decomposes as the mandatory ownership-tag binding followed by
the optional entries and imageUrl bindings. -/
theorem buildUpdateObject_parts (d : DocData) (o n : String) (m : UrlMap) :
    buildUpdateObject d o n m =
      ("userId", JVal.str n) :: (buEntriesPart d o n m ++ buImagePart d o n m) := by
  simp only [buildUpdateObject, buEntriesPart, buImagePart]
  split <;> (try split) <;> (try split) <;> (try split) <;> (try split) <;>
    (try split) <;> (try simp)

theorem bu_getF_userId (d : DocData) (o n : String) (m : UrlMap) :
    getF (buildUpdateObject d o n m) "userId" = some (JVal.str n) := by
  rw [buildUpdateObject_parts]
  simp [getF, alGet]

theorem buEntriesPart_imageUrl_none (d : DocData) (o n : String) (m : UrlMap) :
    alGet (buEntriesPart d o n m) "imageUrl" = none := by
  unfold buEntriesPart
  split <;> (try simp [alGet]) <;> (split <;> simp [alGet])

theorem buImagePart_entries_none (d : DocData) (o n : String) (m : UrlMap) :
    alGet (buImagePart d o n m) "entries" = none := by
  unfold buImagePart
  split <;> (try split) <;> (try split) <;> (try split) <;> simp [alGet]

theorem bu_getF_imageUrl (d : DocData) (o n : String) (m : UrlMap) :
    getF (buildUpdateObject d o n m) "imageUrl" = alGet (buImagePart d o n m) "imageUrl" := by
  rw [buildUpdateObject_parts]
  show alGet _ _ = _
  rw [show alGet (("userId", JVal.str n) :: (buEntriesPart d o n m ++ buImagePart d o n m))
        "imageUrl" = alGet (buEntriesPart d o n m ++ buImagePart d o n m) "imageUrl" by
      simp [alGet]]
  rw [alGet_append, buEntriesPart_imageUrl_none d o n m]

theorem bu_getF_entries (d : DocData) (o n : String) (m : UrlMap) :
    getF (buildUpdateObject d o n m) "entries" = alGet (buEntriesPart d o n m) "entries" := by
  rw [buildUpdateObject_parts]
  show alGet _ _ = _
  rw [show alGet (("userId", JVal.str n) :: (buEntriesPart d o n m ++ buImagePart d o n m))
        "entries" = alGet (buEntriesPart d o n m ++ buImagePart d o n m) "entries" by
      simp [alGet]]
  rw [alGet_append]
  rcases h : alGet (buEntriesPart d o n m) "entries" with _ | v
  · simp [buImagePart_entries_none]
  · simp

/-! ### C4: two-tier reference rewriting -/

/-- C4: For every dependent record and every ReferenceMap: a reference
field (the top-level `imageUrl`, or the `imageUrl` of an `entries`
element) whose value is byte-for-byte a key of the map is patched to the
mapped value; a value absent from the map but containing the old
identifier as a substring is patched to the value with every occurrence
of the old identifier replaced by the new identifier. -/
theorem c4_buildUpdateObject_reference_correct
    (d : DocData) (o n : String) (m : UrlMap) (ho : o ≠ "") :
    (∀ u, getF d "imageUrl" = some (JVal.str u) → u ≠ "" →
      (∀ nu, mapGet m u = some nu →
        getF (buildUpdateObject d o n m) "imageUrl" = some (JVal.str nu)) ∧
      (mapGet m u = none → jsIncludes u o = true →
        getF (buildUpdateObject d o n m) "imageUrl"
          = some (JVal.str (jsReplaceAll o n u)))) ∧
    (∀ (es : List JVal) (i : Nat) (fs : DocData) (u : String),
      getF d "entries" = some (JVal.arr es) →
      es[i]? = some (JVal.obj fs) → alGet fs "imageUrl" = some (JVal.str u) → u ≠ "" →
      (∀ nu, mapGet m u = some nu →
        ∃ es', getF (buildUpdateObject d o n m) "entries" = some (JVal.arr es') ∧
          es'[i]? = some (JVal.obj (alSet fs "imageUrl" (JVal.str nu)))) ∧
      (mapGet m u = none → jsIncludes u o = true →
        ∃ es', getF (buildUpdateObject d o n m) "entries" = some (JVal.arr es') ∧
          es'[i]? = some (JVal.obj (alSet fs "imageUrl"
            (JVal.str (jsReplaceAll o n u)))))) := by
  constructor
  · intro u himg hu
    constructor
    · intro nu hnu
      rw [bu_getF_imageUrl]
      unfold buImagePart
      rw [himg]
      simp [hu, hnu, alGet]
    · intro hnone hinc
      rw [bu_getF_imageUrl]
      unfold buImagePart
      rw [himg]
      simp [hu, hnone, hinc, alGet]
  · intro es i fs u hent hidx hfs hu
    have hmem : JVal.obj fs ∈ es := List.getElem?_mem hidx
    constructor
    · intro nu hnu
      have hval : updateEntryBU o n m (JVal.obj fs)
          = (JVal.obj (alSet fs "imageUrl" (JVal.str nu)), true) := by
        simp [updateEntryBU, hfs, hu, hnu]
      have hany : (es.map (updateEntryBU o n m)).any (fun p => p.2) = true := by
        refine List.any_eq_true.mpr ?_
        exact ⟨updateEntryBU o n m (JVal.obj fs), List.mem_map.mpr ⟨_, hmem, rfl⟩,
          by rw [hval]⟩
      refine ⟨((es.map (updateEntryBU o n m)).map (fun p => p.1)), ?_, ?_⟩
      · rw [bu_getF_entries]
        unfold buEntriesPart
        rw [hent]
        simp only [hany, if_true, alGet]
      · rw [List.getElem?_map, List.getElem?_map, hidx]
        simp [hval]
    · intro hnone hinc
      have hval : updateEntryBU o n m (JVal.obj fs)
          = (JVal.obj (alSet fs "imageUrl" (JVal.str (jsReplaceAll o n u))), true) := by
        simp [updateEntryBU, hfs, hu, hnone, hinc]
      have hany : (es.map (updateEntryBU o n m)).any (fun p => p.2) = true := by
        refine List.any_eq_true.mpr ?_
        exact ⟨updateEntryBU o n m (JVal.obj fs), List.mem_map.mpr ⟨_, hmem, rfl⟩,
          by rw [hval]⟩
      refine ⟨((es.map (updateEntryBU o n m)).map (fun p => p.1)), ?_, ?_⟩
      · rw [bu_getF_entries]
        unfold buEntriesPart
        rw [hent]
        simp only [hany, if_true, alGet]
      · rw [List.getElem?_map, List.getElem?_map, hidx]
        simp [hval]

/-- Witness for C4 at a concrete record and map: the exact-map tier fires
on the top-level imageUrl and the substring tier fires on the entries
element. -/
theorem c4_witness :
    getF (buildUpdateObject docW4 "g1" "a1" mapW4) "imageUrl"
      = some (JVal.str "NEWURL") ∧
    (∃ es', getF (buildUpdateObject docW4 "g1" "a1" mapW4) "entries"
        = some (JVal.arr es') ∧
      es'[0]? = some (JVal.obj (alSet [("imageUrl", JVal.str "meals/g1/b.jpg")]
        "imageUrl" (JVal.str (jsReplaceAll "g1" "a1" "meals/g1/b.jpg"))))) := by
  constructor
  · exact ((c4_buildUpdateObject_reference_correct docW4 "g1" "a1" mapW4
      (by decide)).1 "selfies/g1/a.jpg" rfl (by decide)).1 "NEWURL" rfl
  · exact ((c4_buildUpdateObject_reference_correct docW4 "g1" "a1" mapW4
      (by decide)).2 [JVal.obj [("imageUrl", JVal.str "meals/g1/b.jpg")]] 0
      [("imageUrl", JVal.str "meals/g1/b.jpg")] "meals/g1/b.jpg"
      rfl rfl rfl (by decide)).2 rfl (by decide)

/-! ### C5: traversal rule of the patch builder -/

/-- Counterexample to C5 as stated: although the nested `profile.imageUrl`
value is byte-for-byte a key of the map, the patch contains only the
ownership tag — the builder does not recurse into nested plain objects. -/
theorem c5_counterexample :
    mapGet mapW5 "selfies/g1/a.jpg" = some "NEWURL" ∧
    buildUpdateObject docW5 "g1" "a1" mapW5 = [("userId", JVal.str "a1")] :=
  ⟨rfl, rfl⟩

/-- C5 (amended): the patch examines only the record's top level — its
bindings are drawn from `userId`, the whole-array `entries` replacement
and the top-level `imageUrl`; when the patch carries `entries` at all it
carries the whole rewritten array. -/
theorem c5_top_level_traversal (d : DocData) (o n : String) (m : UrlMap) :
    (∀ e ∈ buildUpdateObject d o n m,
      e.1 = "userId" ∨ e.1 = "entries" ∨ e.1 = "imageUrl") ∧
    (∀ es, getF d "entries" = some (JVal.arr es) →
      getF (buildUpdateObject d o n m) "entries" = none ∨
      getF (buildUpdateObject d o n m) "entries"
        = some (JVal.arr ((es.map (updateEntryBU o n m)).map (fun p => p.1)))) := by
  constructor
  · intro e he
    rw [buildUpdateObject_parts] at he
    rcases List.mem_cons.mp he with h | h
    · left; rw [h]
    · rcases List.mem_append.mp h with h1 | h1
      · right; left
        revert h1
        simp only [buEntriesPart]
        split
        · split
          · intro h1
            simp at h1
            rw [h1]
          · intro h1; simp at h1
        · intro h1; simp at h1
      · right; right
        revert h1
        simp only [buImagePart]
        split
        · split
          · intro h1; simp at h1
          · split
            · intro h1
              simp at h1
              rw [h1]
            · split
              · intro h1
                simp at h1
                rw [h1]
              · intro h1; simp at h1
        · intro h1; simp at h1
  · intro es hes
    rw [bu_getF_entries]
    unfold buEntriesPart
    rw [hes]
    by_cases hany : (es.map (updateEntryBU o n m)).any (fun p => p.2) = true
    · right
      simp only [hany, if_true, alGet]
    · left
      simp only [Bool.not_eq_true] at hany
      simp only [hany, Bool.false_eq_true, if_false]
      rfl

/-- Witness for the amended C5 at a concrete record: the ownership tag is
a permitted key, and the entries rewrite is expressed as the whole array. -/
theorem c5_witness :
    (("userId", JVal.str "a1").1 = "userId" ∨ ("userId", JVal.str "a1").1 = "entries" ∨
      ("userId", JVal.str "a1").1 = "imageUrl") ∧
    (getF (buildUpdateObject docW5e "g1" "a1" []) "entries" = none ∨
      getF (buildUpdateObject docW5e "g1" "a1" []) "entries"
        = some (JVal.arr (([JVal.obj [("imageUrl", JVal.str "x/g1/y")]].map
            (updateEntryBU "g1" "a1" [])).map (fun p => p.1)))) := by
  constructor
  · exact (c5_top_level_traversal docW5e "g1" "a1" []).1 ("userId", JVal.str "a1")
      (List.mem_cons_self _ _)
  · exact (c5_top_level_traversal docW5e "g1" "a1" []).2
      [JVal.obj [("imageUrl", JVal.str "x/g1/y")]] rfl

/-! ### C7: IdentityResolver lookup order and not-found no-op -/

/-- Counterexample to C7 as stated: no record exists at key `"g1"` and the
`id`-field query does match a record, yet the resolver reports not-found,
because the match's key already equals the requested new id. -/
theorem c7_counterexample :
    usersC7.any (fun e => isStrField e.2 USERS_ID_FIELD "g1") = true ∧
    findUserDocToMigrate usersC7 "g1" "a1" = none := by
  exact ⟨by decide, rfl⟩

/-- C7 (amended): when no primary record exists at the candidate key, the
resolver queries the `id` field limited to one match and returns that
record with its actual key — unless that key already equals the new id,
in which case (as when nothing matches) the result is not-found, and
`migrateUser` then completes as a successful no-op performing no writes. -/
theorem c7_resolver_field_fallback (users : Collection) (oldU newU : String)
    (hoe : oldU ≠ "") (ht : jsTrim oldU = oldU) (hd : oldU ≠ newU)
    (hn : jsTrim newU = newU) (hne : newU ≠ "")
    (hmiss : alGet users oldU = none) :
    (findUserDocToMigrate users oldU newU =
      match (users.filter (fun e => isStrField e.2 USERS_ID_FIELD oldU)).head? with
      | some kd => if kd.1 = newU then none else some kd
      | none => none) ∧
    (∀ (gen : Nat → String) (db : DB), db.users = users →
      findUserDocToMigrate users oldU newU = none →
      migrateUser oldU newU gen db =
        { ok := true, error := none, db := db, writes := 0, commits := [] }) := by
  have hs1 : (oldU != "" && jsTrim oldU != "" && oldU != newU) = true := by
    simp [hoe, ht, hd]
  have hs2 : (oldU != "" && jsTrim oldU != "") = true := by
    simp [hoe, ht]
  constructor
  · simp only [findUserDocToMigrate, hs1, if_true, hmiss, hs2, ite_self]
    rcases hh : (users.filter (fun e => isStrField e.2 USERS_ID_FIELD oldU)).head? with _ | kd
    · rw [hh]
    · rw [hh]
      by_cases hk : kd.1 = newU <;> simp [hk]
  · intro gen db hdb hnone
    simp only [migrateUser, ht, hn]
    rw [hdb, if_neg hoe, hnone]
    have hcond2 : ¬((decide (newU = "") || decide (newU = "")) = true) := by
      simp [hne]
    rw [if_neg hcond2]

/-- Witness for the amended C7 at the concrete collection `usersC7`: the
resolver's answer equals the field-query summary, and migrate is a no-op. -/
theorem c7_witness :
    (findUserDocToMigrate usersC7 "g1" "a1" =
      match (usersC7.filter (fun e => isStrField e.2 USERS_ID_FIELD "g1")).head? with
      | some kd => if kd.1 = "a1" then none else some kd
      | none => none) ∧
    migrateUser "g1" "a1" genW dbW7 =
      { ok := true, error := none, db := dbW7, writes := 0, commits := [] } := by
  constructor
  · exact (c7_resolver_field_fallback usersC7 "g1" "a1" (by decide) (by decide)
      (by decide) (by decide) (by decide) rfl).1
  · exact (c7_resolver_field_fallback usersC7 "g1" "a1" (by decide) (by decide)
      (by decide) (by decide) (by decide) rfl).2 genW dbW7 rfl rfl

/-! ### C1: the identity swap -/

/-- Resolution by direct key lookup. -/
theorem findUserDoc_key (users : Collection) (oldU newU : String)
    (ht : jsTrim oldU = oldU) (hoe : oldU ≠ "") (hd : oldU ≠ newU)
    (d : DocData) (hkey : alGet users oldU = some d) :
    findUserDocToMigrate users oldU newU = some (oldU, d) := by
  have hs1 : (oldU != "" && jsTrim oldU != "" && oldU != newU) = true := by
    simp [hoe, ht, hd]
  simp only [findUserDocToMigrate, hs1, if_true, hkey]

/-- The dependent-collection fan-out never touches the users collection. -/
theorem foldl_collStep_users (ao nt : String) (um : UrlMap) (names : List String)
    (acc : DB × Nat × List Nat) :
    (List.foldl (migrateCollStep ao nt um) acc names).1.users = acc.1.users := by
  induction names generalizing acc with
  | nil => rfl
  | cons c rest ih =>
    rw [List.foldl_cons, ih]
    simp only [migrateCollStep]
    split
    · rfl
    · rfl

/-- Counterexample to C1 as stated: the old record's data also sits under
an already-migrated record at the new key, the run reports success, yet
the record at the old key is still there (the transaction's re-entry
guard skipped the swap). -/
theorem c1_counterexample :
    (migrateUser "g1" "a1" genW dbC1x).ok = true ∧
    (alGet (migrateUser "g1" "a1" genW dbC1x).db.users "g1").isSome = true := by
  exact ⟨rfl, rfl⟩

/-- C1 (amended): when a primary record sits at the old key with its id
field equal to the old id, the ids differ, the new id is non-empty, and
no already-migrated record sits at the new key (id field equal to the new
id), a successful migrate leaves the users collection with the old
record's fields at the new key (id field rewritten) and nothing at the
old key. -/
theorem c1_migrate_moves_primary (oldU newU : String) (gen : Nat → String) (db : DB)
    (ho : jsTrim oldU = oldU) (hoe : oldU ≠ "") (hn : jsTrim newU = newU)
    (hne : newU ≠ "") (hd : oldU ≠ newU) (d : DocData)
    (hkey : alGet db.users oldU = some d)
    (hid : getF d USERS_ID_FIELD = some (JVal.str oldU))
    (hguard : ∀ nd, alGet db.users newU = some nd →
      isStrField nd USERS_ID_FIELD newU = false) :
    (migrateUser oldU newU gen db).ok = true ∧
    alGet (migrateUser oldU newU gen db).db.users newU
      = some (setF d USERS_ID_FIELD (JVal.str newU)) ∧
    alGet (migrateUser oldU newU gen db).db.users oldU = none := by
  have hfound : findUserDocToMigrate db.users oldU newU = some (oldU, d) :=
    findUserDoc_key db.users oldU newU ho hoe hd d hkey
  have hcond : ¬((decide (newU = "") || decide (newU = "")) = true) := by
    simp [hne]
  have husers : (migrateUser oldU newU gen db).db.users
      = alDel (alSet db.users newU (setF d USERS_ID_FIELD (JVal.str newU))) oldU := by
    rcases hnew : alGet db.users newU with _ | nd
    · simp only [migrateUser, ho, hn]
      rw [if_neg hoe, hfound]
      simp only [hd, if_neg hcond, if_false, hkey, hnew]
      exact foldl_collStep_users _ _ _ _ _
    · have hg := hguard nd hnew
      simp only [migrateUser, ho, hn]
      rw [if_neg hoe, hfound]
      simp only [hd, if_neg hcond, if_false, hkey, hnew, hg, Bool.false_eq_true,
        if_false]
      exact foldl_collStep_users _ _ _ _ _
  have hok : (migrateUser oldU newU gen db).ok = true := by
    simp only [migrateUser, ho, hn]
    rw [if_neg hcond, if_neg hoe, hfound]
    dsimp only
    rw [if_neg hd]
  refine ⟨hok, ?_, ?_⟩
  · rw [husers, alGet_alDel_ne _ _ _ (fun hh => hd hh.symm), alGet_alSet_self]
  · rw [husers, alGet_alDel_self]

/-- Witness for the amended C1 at a concrete database. -/
theorem c1_witness :
    (migrateUser "g1" "a1" genW dbW1).ok = true ∧
    alGet (migrateUser "g1" "a1" genW dbW1).db.users "a1"
      = some (setF [("id", JVal.str "g1"), ("email", JVal.str "e")]
          USERS_ID_FIELD (JVal.str "a1")) ∧
    alGet (migrateUser "g1" "a1" genW dbW1).db.users "g1" = none := by
  exact c1_migrate_moves_primary "g1" "a1" genW dbW1 (by decide) (by decide)
    (by decide) (by decide) (by decide)
    [("id", JVal.str "g1"), ("email", JVal.str "e")] rfl rfl
    (fun nd h => Option.noConfusion h)

/-! ### C6: batch sizing of the fan-out writes -/

/-- A fan-out step over a collection with no matching records leaves the
accumulator unchanged. -/
theorem collStep_empty (ao nt : String) (um : UrlMap) (acc : DB × Nat × List Nat)
    (c : String)
    (hempty : (getColl acc.1 c).filter (fun e => isStrField e.2 "userId" ao) = []) :
    migrateCollStep ao nt um acc c = acc := by
  simp only [migrateCollStep, hempty, List.isEmpty_nil, if_true]

/-- A fan-out step over a collection whose records all match commits one
single batch holding one update per record. -/
theorem collStep_all (ao nt : String) (um : UrlMap) (acc : DB × Nat × List Nat)
    (c : String)
    (hall : (getColl acc.1 c).filter (fun e => isStrField e.2 "userId" ao)
      = getColl acc.1 c)
    (hne : getColl acc.1 c ≠ []) :
    migrateCollStep ao nt um acc c =
      (setCollD acc.1 c ((getColl acc.1 c).foldl
          (fun cc e => updateDocIn cc e.1 (buildUpdateObject e.2 ao nt um))
          (getColl acc.1 c)),
        acc.2.1 + (getColl acc.1 c).length, acc.2.2 ++ [(getColl acc.1 c).length]) := by
  have hie : (getColl acc.1 c).isEmpty = false := by
    rcases h : getColl acc.1 c with _ | _
    · exact absurd h hne
    · rfl
  simp only [migrateCollStep, hall, hie, Bool.false_eq_true, if_false]

/-- For `n` matching dependent records the migration fan-out issues exactly
one batched commit of `n` update operations for that collection. -/
theorem migrate_commit_size (n : Nat) (hn : n ≠ 0) :
    (migrateUser "g1" "a1" genW (dbC6 n)).commits = [n] := by
  have hall : (mkDepDocs n).filter (fun e => isStrField e.2 "userId" "g1")
      = mkDepDocs n := by
    apply List.filter_eq_self.mpr
    intro a ha
    rcases List.mem_map.mp ha with ⟨i, _, hi⟩
    rw [← hi]
    rfl
  have hlen : (mkDepDocs n).length = n := by
    simp [mkDepDocs]
  have hdne : mkDepDocs n ≠ [] := by
    intro h
    apply hn
    rw [← hlen, h]
    rfl
  have s1 : migrateCollStep "g1" "a1" [] (dbC6mid n, 0, []) "daily_tasks"
      = (dbC6mid n, 0, []) :=
    collStep_empty "g1" "a1" [] (dbC6mid n, 0, []) "daily_tasks" rfl
  have s2 : migrateCollStep "g1" "a1" [] (dbC6mid n, 0, []) "face-analysis"
      = (dbC6mid n, 0, []) :=
    collStep_empty "g1" "a1" [] (dbC6mid n, 0, []) "face-analysis" rfl
  have s3 : migrateCollStep "g1" "a1" [] (dbC6mid n, 0, []) "meal-analysis"
      = (dbC6mid n, 0, []) :=
    collStep_empty "g1" "a1" [] (dbC6mid n, 0, []) "meal-analysis" rfl
  have s4 := collStep_all "g1" "a1" [] (dbC6mid n, 0, []) "videos" hall hdne
  have key : (migrateUser "g1" "a1" genW (dbC6 n)).commits
      = (List.foldl (migrateCollStep "g1" "a1" []) (dbC6mid n, 0, [])
          SUBCOLLECTIONS_BY_USER_ID).2.2 := rfl
  rw [key]
  rw [show SUBCOLLECTIONS_BY_USER_ID
      = ["daily_tasks", "face-analysis", "meal-analysis", "videos"] from rfl]
  rw [List.foldl_cons, s1, List.foldl_cons, s2, List.foldl_cons, s3,
    List.foldl_cons, s4, List.foldl_nil]
  simp only [List.nil_append]
  rw [show getColl (dbC6mid n) "videos" = mkDepDocs n from rfl, hlen]

/-- C6: the dependent-record fan-out of migration is NOT grouped into
500-operation batches: with 501 matching records the single committed
batch holds 501 operations, above the store's per-commit limit. -/
theorem c6_commit_exceeds_limit :
    ∃ c ∈ (migrateUser "g1" "a1" genW (dbC6 501)).commits, 500 < c := by
  rw [migrate_commit_size 501 (by decide)]
  refine ⟨501, ?_, by decide⟩
  simp

/-! ### C3: convergence of the ownership-tag rewrite -/

/-- Fields other than the ones in the patch are untouched by `applyF`. -/
theorem getF_applyF_of_no_key (d : DocData) (fields : DocData) (f : String)
    (h : ∀ e ∈ fields, e.1 ≠ f) : getF (applyF d fields) f = getF d f := by
  induction fields generalizing d with
  | nil => rfl
  | cons x rest ih =>
    rw [applyF, List.foldl_cons]
    have hx : x.1 ≠ f := h x (List.mem_cons_self _ _)
    have := ih (setF d x.1 x.2) (fun e he => h e (List.mem_cons_of_mem _ he))
    rw [applyF] at this
    rw [this]
    exact alGet_alSet_ne d x.1 f x.2 (fun hh => hx hh.symm)

/-- No binding of the optional patch parts is the ownership tag. -/
theorem buParts_not_userId (d : DocData) (o n : String) (m : UrlMap) :
    ∀ e ∈ buEntriesPart d o n m ++ buImagePart d o n m, e.1 ≠ "userId" := by
  intro e he
  rcases List.mem_append.mp he with h | h
  · revert h
    simp only [buEntriesPart]
    split
    · split
      · intro h
        simp at h
        rw [h]
        simp
      · intro h
        simp at h
    · intro h
      simp at h
  · revert h
    simp only [buImagePart]
    split
    · split
      · intro h
        simp at h
      · split
        · intro h
          simp at h
          rw [h]
          simp
        · split
          · intro h
            simp at h
            rw [h]
            simp
          · intro h
            simp at h
    · intro h
      simp at h

/-- Applying a patch always forces the ownership tag to the new id. -/
theorem getF_applyF_bu (dcur dsnap : DocData) (ao nt : String) (m : UrlMap) :
    getF (applyF dcur (buildUpdateObject dsnap ao nt m)) "userId"
      = some (JVal.str nt) := by
  rw [buildUpdateObject_parts, applyF, List.foldl_cons]
  have h1 := getF_applyF_of_no_key (setF dcur "userId" (JVal.str nt))
    (buEntriesPart dsnap ao nt m ++ buImagePart dsnap ao nt m) "userId"
    (buParts_not_userId dsnap ao nt m)
  rw [applyF] at h1
  rw [h1]
  exact alGet_alSet_self dcur "userId" (JVal.str nt)

/-- A committed batch acts independently on each stored record. -/
theorem commitFold_eq_map (ao nt : String) (um : UrlMap)
    (snap : List (String × DocData)) (coll : Collection) :
    snap.foldl (fun c e => updateDocIn c e.1 (buildUpdateObject e.2 ao nt um)) coll
      = coll.map (perEntryFold ao nt um snap) := by
  induction snap generalizing coll with
  | nil =>
    rw [List.foldl_nil]
    have : perEntryFold ao nt um [] = fun e0 => e0 := rfl
    rw [this, List.map_id']
  | cons x rest ih =>
    rw [List.foldl_cons, ih, updateDocIn, List.map_map]
    apply List.map_congr_left
    intro e0 _
    rfl

/-- The per-entry residue never changes the document key. -/
theorem perEntryFold_fst (ao nt : String) (um : UrlMap)
    (snap : List (String × DocData)) (e0 : String × DocData) :
    (perEntryFold ao nt um snap e0).1 = e0.1 := by
  induction snap generalizing e0 with
  | nil => rfl
  | cons x rest ih =>
    rw [perEntryFold, List.foldl_cons]
    by_cases hx : e0.1 = x.1
    · rw [if_pos hx]
      have := ih (e0.1, applyF e0.2 (buildUpdateObject x.2 ao nt um))
      rw [perEntryFold] at this
      rw [this]
    · rw [if_neg hx]
      exact ih e0

/-- A record none of the queued updates addresses is unchanged. -/
theorem perEntryFold_frame (ao nt : String) (um : UrlMap)
    (snap : List (String × DocData)) (e0 : String × DocData)
    (h : ∀ y ∈ snap, y.1 ≠ e0.1) : perEntryFold ao nt um snap e0 = e0 := by
  induction snap with
  | nil => rfl
  | cons x rest ih =>
    rw [perEntryFold, List.foldl_cons]
    have hx : e0.1 ≠ x.1 := fun hh => h x (List.mem_cons_self _ _) hh.symm
    rw [if_neg hx]
    exact ih (fun y hy => h y (List.mem_cons_of_mem _ hy))

/-- A record some queued update addresses ends up tagged with the new id. -/
theorem perEntryFold_userId (ao nt : String) (um : UrlMap)
    (snap : List (String × DocData)) (e0 : String × DocData)
    (h : ∃ x ∈ snap, x.1 = e0.1) :
    getF (perEntryFold ao nt um snap e0).2 "userId" = some (JVal.str nt) := by
  induction snap generalizing e0 with
  | nil =>
    rcases h with ⟨x, hx, _⟩
    exact absurd hx (List.not_mem_nil x)
  | cons x rest ih =>
    rw [perEntryFold, List.foldl_cons]
    by_cases hrest : ∃ y ∈ rest, y.1 = e0.1
    · by_cases hx : e0.1 = x.1
      · rw [if_pos hx]
        have := ih (e0.1, applyF e0.2 (buildUpdateObject x.2 ao nt um))
        rw [perEntryFold] at this
        exact this (by simpa using hrest)
      · rw [if_neg hx]
        exact ih e0 hrest
    · have hx : e0.1 = x.1 := by
        rcases h with ⟨y, hy, hy1⟩
        rcases List.mem_cons.mp hy with h1 | h1
        · rw [← hy1, h1]
        · exact absurd ⟨y, h1, hy1⟩ hrest
      rw [if_pos hx]
      have hframe := perEntryFold_frame ao nt um rest
        (e0.1, applyF e0.2 (buildUpdateObject x.2 ao nt um))
        (fun y hy hh => hrest ⟨y, hy, hh⟩)
      rw [perEntryFold] at hframe
      rw [hframe]
      exact getF_applyF_bu e0.2 x.2 ao nt um

/-- Field test against a known different string value. -/
theorem isStrField_false_of_getF (d : DocData) (f v w : String)
    (h : getF d f = some (JVal.str w)) (hvw : w ≠ v) : isStrField d f v = false := by
  simp [isStrField, h, hvw]

/-- Field test against the known stored value. -/
theorem isStrField_true_of_getF (d : DocData) (f v : String)
    (h : getF d f = some (JVal.str v)) : isStrField d f v = true := by
  simp [isStrField, h]

/-- After a collection's batch, no record carries the old tag. -/
theorem collBatchResult_no_old (ao nt : String) (um : UrlMap) (hne : ao ≠ nt)
    (coll : Collection) :
    ∀ e ∈ collBatchResult ao nt um coll, isStrField e.2 "userId" ao = false := by
  intro e he
  by_cases hie : (coll.filter (fun x => isStrField x.2 "userId" ao)).isEmpty = true
  · rw [collBatchResult, if_pos hie] at he
    have hnil : coll.filter (fun x => isStrField x.2 "userId" ao) = [] :=
      List.isEmpty_iff.mp hie
    have := List.filter_eq_nil_iff.mp hnil e he
    simpa using this
  · rw [collBatchResult, if_neg hie, commitFold_eq_map] at he
    rcases List.mem_map.mp he with ⟨e0, he0, rfl⟩
    by_cases hhit : ∃ x ∈ coll.filter (fun x => isStrField x.2 "userId" ao), x.1 = e0.1
    · exact isStrField_false_of_getF _ _ _ nt
        (perEntryFold_userId ao nt um _ e0 hhit) (Ne.symm hne)
    · rw [perEntryFold_frame ao nt um _ e0 (fun y hy hh => hhit ⟨y, hy, hh⟩)]
      by_cases hp : isStrField e0.2 "userId" ao = true
      · exact absurd ⟨e0, List.mem_filter.mpr ⟨he0, hp⟩, rfl⟩ hhit
      · simpa using hp

/-- After a collection's batch, every record that carried the old tag is
still stored under its key and now carries the new tag. -/
theorem collBatchResult_retag (ao nt : String) (um : UrlMap) (coll : Collection) :
    ∀ k d0, (k, d0) ∈ coll → isStrField d0 "userId" ao = true →
      ∃ e, e ∈ collBatchResult ao nt um coll ∧ e.1 = k ∧
        isStrField e.2 "userId" nt = true := by
  intro k d0 hmem htag
  have hsnap : (k, d0) ∈ coll.filter (fun x => isStrField x.2 "userId" ao) :=
    List.mem_filter.mpr ⟨hmem, htag⟩
  have hie : (coll.filter (fun x => isStrField x.2 "userId" ao)).isEmpty = false := by
    rcases h : coll.filter (fun x => isStrField x.2 "userId" ao) with _ | _
    · rw [h] at hsnap
      exact absurd hsnap (List.not_mem_nil _)
    · rw [h]
      rfl
  refine ⟨perEntryFold ao nt um (coll.filter (fun x => isStrField x.2 "userId" ao)) (k, d0),
    ?_, ?_, ?_⟩
  · rw [collBatchResult, if_neg (by simp [hie]), commitFold_eq_map]
    exact List.mem_map.mpr ⟨(k, d0), hmem, rfl⟩
  · exact perEntryFold_fst ao nt um _ (k, d0)
  · exact isStrField_true_of_getF _ _ _
      (perEntryFold_userId ao nt um _ (k, d0) ⟨(k, d0), hsnap, rfl⟩)

/-- A fan-out step leaves every other collection unchanged. -/
theorem collStep_getColl_ne (ao nt : String) (um : UrlMap)
    (acc : DB × Nat × List Nat) (c c' : String) (hcc : c ≠ c') :
    getColl (migrateCollStep ao nt um acc c').1 c = getColl acc.1 c := by
  simp only [migrateCollStep]
  split
  · rfl
  · simp only [getColl, setCollD]
    rw [alGet_alSet_ne _ _ _ _ hcc]

/-- A fan-out step rewrites its own collection to the batch result. -/
theorem collStep_getColl_self (ao nt : String) (um : UrlMap)
    (acc : DB × Nat × List Nat) (c : String) :
    getColl (migrateCollStep ao nt um acc c).1 c
      = collBatchResult ao nt um (getColl acc.1 c) := by
  simp only [migrateCollStep, collBatchResult]
  split
  · rfl
  · simp only [getColl, setCollD]
    rw [alGet_alSet_self]
    rfl

/-- Collections outside the processed name list keep their contents. -/
theorem foldl_collStep_getColl_frame (ao nt : String) (um : UrlMap)
    (names : List String) (acc : DB × Nat × List Nat) (c : String)
    (hc : c ∉ names) :
    getColl (List.foldl (migrateCollStep ao nt um) acc names).1 c
      = getColl acc.1 c := by
  induction names generalizing acc with
  | nil => rfl
  | cons c' rest ih =>
    rw [List.foldl_cons]
    have hcc : c ≠ c' := fun hh => hc (hh ▸ List.mem_cons_self _ _)
    rw [ih _ (fun hh => hc (List.mem_cons_of_mem _ hh))]
    exact collStep_getColl_ne ao nt um acc c c' hcc

/-- Each collection of a duplicate-free fan-out list ends up as its own
batch result. -/
theorem foldl_collStep_getColl (ao nt : String) (um : UrlMap)
    (names : List String) (hnd : names.Nodup) (acc : DB × Nat × List Nat)
    (c : String) (hc : c ∈ names) :
    getColl (List.foldl (migrateCollStep ao nt um) acc names).1 c
      = collBatchResult ao nt um (getColl acc.1 c) := by
  induction names generalizing acc with
  | nil => exact absurd hc (List.not_mem_nil c)
  | cons c' rest ih =>
    rw [List.foldl_cons]
    rcases List.nodup_cons.mp hnd with ⟨hc', hnd'⟩
    by_cases hceq : c = c'
    · subst hceq
      rw [foldl_collStep_getColl_frame ao nt um rest _ c hc']
      exact collStep_getColl_self ao nt um acc c
    · have hcr : c ∈ rest := by
        rcases List.mem_cons.mp hc with h | h
        · exact absurd h hceq
        · exact h
      rw [ih hnd' _ hcr]
      rw [collStep_getColl_ne ao nt um acc c c' hceq]

/-- The resolver never reports the target id itself as the id to migrate
from. -/
theorem findUserDoc_ne_new (users : Collection) (o n : String)
    (f : String × DocData) (h : findUserDocToMigrate users o n = some f) :
    f.1 ≠ n := by
  simp only [findUserDocToMigrate] at h
  by_cases hs : (o != "" && jsTrim o != "" && o != n) = true
  · rw [if_pos hs] at h
    rcases hget : alGet users o with _ | d
    · rw [hget] at h
      dsimp only at h
      rcases hh : (users.filter (fun e => isStrField e.2 USERS_ID_FIELD
          (if (o != "" && jsTrim o != "") = true then o else n))).head? with _ | kd
      · rw [hh] at h
        exact Option.noConfusion h
      · rw [hh] at h
        dsimp only at h
        by_cases hk : (kd.1 != n) = true
        · rw [if_pos hk] at h
          cases h
          simpa using hk
        · rw [if_neg hk] at h
          exact Option.noConfusion h
    · rw [hget] at h
      dsimp only at h
      cases h
      simp only [Bool.and_eq_true] at hs
      simpa using hs.2
  · rw [if_neg hs] at h
    dsimp only at h
    rcases hh : (users.filter (fun e => isStrField e.2 USERS_ID_FIELD
        (if (o != "" && jsTrim o != "") = true then o else n))).head? with _ | kd
    · rw [hh] at h
      exact Option.noConfusion h
    · rw [hh] at h
      dsimp only at h
      by_cases hk : (kd.1 != n) = true
      · rw [if_pos hk] at h
        cases h
        simpa using hk
      · rw [if_neg hk] at h
        exact Option.noConfusion h

/-- On the migrating path, each covered collection of the final state is
its own batch result. -/
theorem migrateUser_getColl (oldU newU : String) (gen : Nat → String) (db : DB)
    (hn : jsTrim newU = newU) (hne : newU ≠ "") (found : String × DocData)
    (hfound : findUserDocToMigrate db.users
      (if jsTrim oldU = "" then newU else jsTrim oldU) newU = some found)
    (c : String) (hc : c ∈ SUBCOLLECTIONS_BY_USER_ID) :
    getColl (migrateUser oldU newU gen db).db c
      = collBatchResult found.1 newU
          (copyStorageForUser found.1 newU gen db.storage).urlMap (getColl db c) := by
  have hner : found.1 ≠ newU := findUserDoc_ne_new _ _ _ _ hfound
  have hcond : ¬((decide (newU = "") || decide (newU = "")) = true) := by simp [hne]
  simp only [migrateUser, hn]
  rw [if_neg hcond, hfound]
  dsimp only
  rw [if_neg hner]
  exact foldl_collStep_getColl found.1 newU
    (copyStorageForUser found.1 newU gen db.storage).urlMap
    SUBCOLLECTIONS_BY_USER_ID (by decide) _ c hc

/-- C3: after a successful migrate that resolved a document, every
dependent record in the covered collections that carried the resolved old
tag now carries the new tag, and no record in those collections carries
the resolved old tag any more. -/
theorem c3_migrate_convergence (oldU newU : String) (gen : Nat → String) (db : DB)
    (hn : jsTrim newU = newU) (hne : newU ≠ "") (found : String × DocData)
    (hfound : findUserDocToMigrate db.users
      (if jsTrim oldU = "" then newU else jsTrim oldU) newU = some found) :
    (migrateUser oldU newU gen db).ok = true ∧
    (∀ c ∈ SUBCOLLECTIONS_BY_USER_ID,
      (∀ e ∈ getColl (migrateUser oldU newU gen db).db c,
        isStrField e.2 "userId" found.1 = false) ∧
      (∀ k d0, (k, d0) ∈ getColl db c → isStrField d0 "userId" found.1 = true →
        ∃ e, e ∈ getColl (migrateUser oldU newU gen db).db c ∧ e.1 = k ∧
          isStrField e.2 "userId" newU = true)) := by
  have hner : found.1 ≠ newU := findUserDoc_ne_new _ _ _ _ hfound
  constructor
  · have hcond : ¬((decide (newU = "") || decide (newU = "")) = true) := by simp [hne]
    simp only [migrateUser, hn]
    rw [if_neg hcond, hfound]
    dsimp only
    rw [if_neg hner]
  · intro c hc
    rw [migrateUser_getColl oldU newU gen db hn hne found hfound c hc]
    constructor
    · exact collBatchResult_no_old found.1 newU _ hner (getColl db c)
    · exact collBatchResult_retag found.1 newU _ (getColl db c)

/-- Witness for C3 at a concrete database: after the migration the
matching dependent record is retagged and nothing keeps the old tag. -/
theorem c3_witness :
    (migrateUser "g1" "a1" genW dbW3).ok = true ∧
    (∀ e ∈ getColl (migrateUser "g1" "a1" genW dbW3).db "daily_tasks",
      isStrField e.2 "userId" "g1" = false) ∧
    (∃ e, e ∈ getColl (migrateUser "g1" "a1" genW dbW3).db "daily_tasks" ∧
      e.1 = "t1" ∧ isStrField e.2 "userId" "a1" = true) := by
  have h := c3_migrate_convergence "g1" "a1" genW dbW3 (by decide) (by decide)
    ("g1", [("id", JVal.str "g1")]) rfl
  refine ⟨h.1, (h.2 "daily_tasks" (by decide)).1, ?_⟩
  exact (h.2 "daily_tasks" (by decide)).2 "t1" [("userId", JVal.str "g1")]
    (List.mem_cons_self _ _) (by decide)

/-! ### C8: the mirror never touches the source prefixes -/

/-- A string prefixes its own extensions. -/
theorem strHasPfx_append (a b : String) : strHasPfx a (a ++ b) = true := by
  rw [strHasPfx, String.data_append, List.isPrefixOf_iff_prefix]
  exact List.prefix_append a.data b.data

/-- The file loop writes only under the destination prefix
`folder/newU/`; every other path keeps its binding. -/
theorem copyFolderLoop_frame (bn folder newU : String) (gen : Nat → String)
    (pfx : String) (files : List String) (st : FolderSt) (p : String)
    (hp : strHasPfx (storagePfx folder newU) p = false) :
    alGet (copyFolderLoop bn folder newU gen pfx files st).storage p
      = alGet st.storage p := by
  induction files generalizing st with
  | nil => rfl
  | cons name rest ih =>
    have hne : ∀ fileName : String,
        p ≠ folder ++ "/" ++ newU ++ "/" ++ fileName := by
      intro fileName heq
      have hyes : strHasPfx (storagePfx folder newU)
          (folder ++ "/" ++ newU ++ "/" ++ fileName) = true :=
        strHasPfx_append (storagePfx folder newU) fileName
      rw [← heq] at hyes
      rw [hyes] at hp
      exact Bool.noConfusion hp
    simp only [copyFolderLoop]
    split
    · exact ih st
    · split
      · exact ih st
      · split
        · rfl
        · split
          · rw [ih]
            exact alGet_alSet_ne _ _ _ _ (hne _)
          · rw [ih]
            rw [alGet_alSet_ne _ _ _ _ (hne _), alGet_alSet_ne _ _ _ _ (hne _)]

/-- Folder-level frame: `copyStorageFolder` leaves every path outside the
destination prefix unchanged. -/
theorem copyStorageFolder_frame (bn folder oldU newU : String) (gen : Nat → String)
    (stg : Storage) (ctr : Nat) (p : String)
    (hp : strHasPfx (storagePfx folder newU) p = false) :
    alGet (copyStorageFolder bn folder oldU newU gen stg ctr).storage p
      = alGet stg p := by
  simp only [copyStorageFolder]
  exact copyFolderLoop_frame bn folder newU gen _ _ _ p hp

/-- Mirror-level frame: `copyStorageForUser` leaves every path outside
the two destination prefixes unchanged. -/
theorem copyStorageForUser_frame (oldU newU : String) (gen : Nat → String)
    (st : Storage) (p : String)
    (hp1 : strHasPfx (storagePfx "selfies" newU) p = false)
    (hp2 : strHasPfx (storagePfx "meals" newU) p = false) :
    alGet (copyStorageForUser oldU newU gen st).storage p = alGet st p := by
  simp only [copyStorageForUser, STORAGE_FOLDERS]
  rw [List.foldl_cons, List.foldl_cons, List.foldl_nil]
  split
  · dsimp only
    split
    · dsimp only
      rw [copyStorageFolder_frame _ _ _ _ _ _ _ _ hp2,
        copyStorageFolder_frame _ _ _ _ _ _ _ _ hp1]
    · dsimp only
      rw [copyStorageFolder_frame _ _ _ _ _ _ _ _ hp2,
        copyStorageFolder_frame _ _ _ _ _ _ _ _ hp1]
  · dsimp only
    split
    · dsimp only
      rw [copyStorageFolder_frame _ _ _ _ _ _ _ _ hp2,
        copyStorageFolder_frame _ _ _ _ _ _ _ _ hp1]
    · dsimp only
      rw [copyStorageFolder_frame _ _ _ _ _ _ _ _ hp2,
        copyStorageFolder_frame _ _ _ _ _ _ _ _ hp1]

/-- Under prefix disjointness, a path below a source prefix is below no
destination prefix. -/
theorem not_new_prefixed_of_old (oldU newU p : String)
    (hdisj : prefixesDisjoint oldU newU) (f1 f2 : String)
    (h1 : f1 ∈ STORAGE_FOLDERS) (h2 : f2 ∈ STORAGE_FOLDERS)
    (holdp : strHasPfx (storagePfx f2 oldU) p = true) :
    strHasPfx (storagePfx f1 newU) p = false := by
  cases hb : strHasPfx (storagePfx f1 newU) p with
  | false => rfl
  | true =>
    exfalso
    have ha : (storagePfx f1 newU).data <+: p.data := by
      rw [← List.isPrefixOf_iff_prefix]
      exact hb
    have hbb : (storagePfx f2 oldU).data <+: p.data := by
      rw [← List.isPrefixOf_iff_prefix]
      exact holdp
    rcases hdisj f1 h1 f2 h2 with ⟨hff1, hff2⟩
    rcases List.prefix_or_prefix_of_prefix ha hbb with h | h
    · rw [← List.isPrefixOf_iff_prefix] at h
      rw [h] at hff1
      exact Bool.noConfusion hff1
    · rw [← List.isPrefixOf_iff_prefix] at h
      rw [h] at hff2
      exact Bool.noConfusion hff2

/-- C8: the object-mirroring step never deletes or modifies any blob
under the old identity's path prefixes `selfies/oldU/` and `meals/oldU/`:
after the mirror every such path holds exactly what it held before. -/
theorem c8_mirror_preserves_old_blobs (oldU newU : String) (gen : Nat → String)
    (st : Storage) (hdisj : prefixesDisjoint oldU newU) :
    ∀ p, (STORAGE_FOLDERS.any (fun f => strHasPfx (storagePfx f oldU) p)) = true →
      alGet (copyStorageForUser oldU newU gen st).storage p = alGet st p := by
  intro p holdp
  rcases List.any_eq_true.mp holdp with ⟨f2, hf2, holdf⟩
  exact copyStorageForUser_frame oldU newU gen st p
    (not_new_prefixed_of_old oldU newU p hdisj "selfies" f2 (by decide) hf2 holdf)
    (not_new_prefixed_of_old oldU newU p hdisj "meals" f2 (by decide) hf2 holdf)

/-- Witness for C8: a concrete source blob is untouched by the mirror. -/
theorem c8_witness :
    prefixesDisjoint "g1" "a1" ∧
    alGet (copyStorageForUser "g1" "a1" genW stW8).storage "selfies/g1/a.jpg"
      = some { data := "img", token := some "t0" } := by
  refine ⟨by decide, ?_⟩
  rw [c8_mirror_preserves_old_blobs "g1" "a1" genW stW8 (by decide)
    "selfies/g1/a.jpg" (by decide)]
  rfl

/-! ### C2: idempotence of migrate -/

/-- Two distinct members force a list length of at least two. -/
theorem two_mem_length {α : Type} (l : List α) (a b : α) (ha : a ∈ l) (hb : b ∈ l)
    (hab : a ≠ b) : 2 ≤ l.length := by
  cases l with
  | nil => exact absurd ha (List.not_mem_nil a)
  | cons x t =>
    cases t with
    | nil =>
      rcases List.mem_singleton.mp ha with rfl
      rcases List.mem_singleton.mp hb with rfl
      exact absurd rfl hab
    | cons y u => simp [Nat.le_add_left]

/-- Full case analysis of a successful resolution. -/
theorem findUserDoc_cases (users : Collection) (o n : String) (f : String × DocData)
    (h : findUserDocToMigrate users o n = some f) :
    ((o != "" && jsTrim o != "" && o != n) = true ∧ f.1 = o ∧ alGet users o = some f.2)
    ∨ (f ∈ users ∧ f.1 ≠ n ∧
        isStrField f.2 USERS_ID_FIELD
          (if (o != "" && jsTrim o != "") = true then o else n) = true ∧
        ((o != "" && jsTrim o != "" && o != n) = true → alGet users o = none)) := by
  have hfield : ∀ kd, (users.filter (fun e => isStrField e.2 USERS_ID_FIELD
      (if (o != "" && jsTrim o != "") = true then o else n))).head? = some kd →
      kd ∈ users ∧ isStrField kd.2 USERS_ID_FIELD
        (if (o != "" && jsTrim o != "") = true then o else n) = true := by
    intro kd hh
    have hmem := List.mem_of_mem_head? (l :=
      users.filter (fun e => isStrField e.2 USERS_ID_FIELD
        (if (o != "" && jsTrim o != "") = true then o else n))) (by rw [hh]; rfl)
    exact ⟨(List.mem_filter.mp hmem).1, (List.mem_filter.mp hmem).2⟩
  simp only [findUserDocToMigrate] at h
  by_cases hs : (o != "" && jsTrim o != "" && o != n) = true
  · rw [if_pos hs] at h
    rcases hget : alGet users o with _ | d
    · rw [hget] at h
      dsimp only at h
      rcases hh : (users.filter (fun e => isStrField e.2 USERS_ID_FIELD
          (if (o != "" && jsTrim o != "") = true then o else n))).head? with _ | kd
      · rw [hh] at h
        exact Option.noConfusion h
      · rw [hh] at h
        dsimp only at h
        by_cases hk : (kd.1 != n) = true
        · rw [if_pos hk] at h
          cases h
          exact Or.inr ⟨(hfield f hh).1, by simpa using hk, (hfield f hh).2,
            fun _ => rfl⟩
        · rw [if_neg hk] at h
          exact Option.noConfusion h
    · rw [hget] at h
      dsimp only at h
      cases h
      exact Or.inl ⟨hs, rfl, rfl⟩
  · rw [if_neg hs] at h
    dsimp only at h
    rcases hh : (users.filter (fun e => isStrField e.2 USERS_ID_FIELD
        (if (o != "" && jsTrim o != "") = true then o else n))).head? with _ | kd
    · rw [hh] at h
      exact Option.noConfusion h
    · rw [hh] at h
      dsimp only at h
      by_cases hk : (kd.1 != n) = true
      · rw [if_pos hk] at h
        cases h
        exact Or.inr ⟨(hfield f hh).1, by simpa using hk, (hfield f hh).2,
          fun hss => absurd hss hs⟩
      · rw [if_neg hk] at h
        exact Option.noConfusion h

/-- When resolution finds nothing, migrate is a successful no-op. -/
theorem migrateUser_noop (oldU newU : String) (gen : Nat → String) (db : DB)
    (hn : jsTrim newU = newU) (hne : newU ≠ "")
    (hnone : findUserDocToMigrate db.users
      (if jsTrim oldU = "" then newU else jsTrim oldU) newU = none) :
    migrateUser oldU newU gen db
      = { ok := true, error := none, db := db, writes := 0, commits := [] } := by
  have hcond : ¬((decide (newU = "") || decide (newU = "")) = true) := by simp [hne]
  simp only [migrateUser, hn]
  rw [if_neg hcond, hnone]

/-- On the migrating path with no record at the new key, the final users
collection is the old record deleted and the merged record inserted. -/
theorem migrateUser_users_swap (oldU newU : String) (gen : Nat → String) (db : DB)
    (hn : jsTrim newU = newU) (hne : newU ≠ "") (found : String × DocData)
    (hfound : findUserDocToMigrate db.users
      (if jsTrim oldU = "" then newU else jsTrim oldU) newU = some found)
    (hget : alGet db.users found.1 = some found.2)
    (hnew : alGet db.users newU = none) :
    (migrateUser oldU newU gen db).db.users
      = alDel (alSet db.users newU (setF found.2 USERS_ID_FIELD (JVal.str newU)))
          found.1 := by
  have hner : found.1 ≠ newU := findUserDoc_ne_new _ _ _ _ hfound
  have hcond : ¬((decide (newU = "") || decide (newU = "")) = true) := by simp [hne]
  simp only [migrateUser, hn]
  rw [if_neg hcond, hfound]
  dsimp only
  rw [if_neg hner]
  rw [foldl_collStep_users]
  dsimp only
  rw [hget, hnew]

/-- Self-targeted resolution reports nothing to migrate once the merged
record heads the field query. -/
theorem resolver_none_self (users2 : Collection) (newU : String)
    (hne : newU ≠ "") (hn : jsTrim newU = newU) (dX : DocData)
    (hhead : (users2.filter (fun e =>
      isStrField e.2 USERS_ID_FIELD newU)).head? = some (newU, dX)) :
    findUserDocToMigrate users2 newU newU = none := by
  have hs : (newU != "" && jsTrim newU != "" && newU != newU) = false := by simp
  have hsv : (if (newU != "" && jsTrim newU != "") = true then newU else newU) = newU :=
    ite_self newU
  simp only [findUserDocToMigrate, hs, Bool.false_eq_true, if_false, hsv]
  rw [hhead]
  simp

/-- Old-id resolution reports nothing once the old key is gone and no
record carries the old id field. -/
theorem resolver_none_ne (users2 : Collection) (oldU newU : String)
    (hoe : oldU ≠ "") (ho : jsTrim oldU = oldU) (hd : oldU ≠ newU)
    (hkey : alGet users2 oldU = none)
    (hfilter : users2.filter (fun e => isStrField e.2 USERS_ID_FIELD oldU) = []) :
    findUserDocToMigrate users2 oldU newU = none := by
  simp [findUserDocToMigrate, hkey, hfilter, hoe, ho, hd]

/-- Second-run resolution in the self-heal case: after the swap the field
query is headed by the merged record, whose key already is the new id. -/
theorem run2_none_selfcase (newU : String) (db : DB)
    (hn : jsTrim newU = newU) (hne : newU ≠ "")
    (H2 : alGet db.users newU = none)
    (H3 : (db.users.filter (fun e => isStrField e.2 USERS_ID_FIELD newU)).length ≤ 1)
    (found : String × DocData)
    (hfound : findUserDocToMigrate db.users newU newU = some found) :
    findUserDocToMigrate
      (alDel (alSet db.users newU (setF found.2 USERS_ID_FIELD (JVal.str newU)))
        found.1) newU newU = none := by
  have hner : found.1 ≠ newU := findUserDoc_ne_new _ _ _ _ hfound
  rcases findUserDoc_cases _ _ _ _ hfound with ⟨hs, _, _⟩ | ⟨hmem, _, htag, _⟩
  · exact absurd hs (by simp)
  · rw [ite_self] at htag
    apply resolver_none_self _ newU hne hn
      (setF found.2 USERS_ID_FIELD (JVal.str newU))
    rw [alSet_of_not_mem db.users newU _ H2, alDel, List.filter_append,
      List.filter_append]
    have hleft : ((db.users.filter (fun e => e.1 != found.1)).filter
        (fun e => isStrField e.2 USERS_ID_FIELD newU)) = [] := by
      rw [List.filter_eq_nil_iff]
      intro e he hpe
      have hsplit := List.mem_filter.mp he
      have he3 : e ∈ db.users.filter (fun x => isStrField x.2 USERS_ID_FIELD newU) :=
        List.mem_filter.mpr ⟨hsplit.1, hpe⟩
      have hf3 : found ∈ db.users.filter (fun x => isStrField x.2 USERS_ID_FIELD newU) :=
        List.mem_filter.mpr ⟨hmem, htag⟩
      have h2m := two_mem_length _ e found he3 hf3
        (fun hh => by rw [hh] at hsplit; simpa using hsplit.2)
      omega
    rw [hleft]
    have hKeep : ((newU : String) != found.1) = true := by
      simp only [bne_iff_ne, ne_eq]
      exact fun hh => hner hh.symm
    have hM : isStrField (setF found.2 USERS_ID_FIELD (JVal.str newU))
        USERS_ID_FIELD newU = true :=
      isStrField_true_of_getF _ _ _ (alGet_alSet_self _ _ _)
    simp [hKeep, hM]

/-- Second-run resolution in the distinct-ids case: the old key is gone
and no record carries the old id field any more. -/
theorem run2_none_necase (oldU newU : String) (db : DB)
    (ho : jsTrim oldU = oldU) (hoe : oldU ≠ "") (hdq : oldU ≠ newU)
    (H1 : (db.users.map (fun e => e.1)).Nodup)
    (H2 : alGet db.users newU = none)
    (H4 : (db.users.filter (fun e =>
      decide (e.1 = oldU) || isStrField e.2 USERS_ID_FIELD oldU)).length ≤ 1)
    (found : String × DocData)
    (hfound : findUserDocToMigrate db.users oldU newU = some found) :
    findUserDocToMigrate
      (alDel (alSet db.users newU (setF found.2 USERS_ID_FIELD (JVal.str newU)))
        found.1) oldU newU = none := by
  have hner : found.1 ≠ newU := findUserDoc_ne_new _ _ _ _ hfound
  have hfH4 : found ∈ db.users.filter (fun e =>
      decide (e.1 = oldU) || isStrField e.2 USERS_ID_FIELD oldU) := by
    rcases findUserDoc_cases _ _ _ _ hfound with ⟨_, hf1, hga⟩ | ⟨hmemf, _, htag, _⟩
    · refine List.mem_filter.mpr ⟨?_, ?_⟩
      · have := alGet_mem db.users oldU found.2 (hf1 ▸ hga)
        rw [← hf1] at this
        exact this
      · simp [hf1]
    · refine List.mem_filter.mpr ⟨hmemf, ?_⟩
      rw [if_pos (by simp [hoe, ho])] at htag
      simp [htag]
  apply resolver_none_ne _ oldU newU hoe ho hdq
  · by_cases hfo : found.1 = oldU
    · rw [← hfo]
      exact alGet_alDel_self _ _
    · rw [alGet_alDel_ne _ _ _ (fun hh => hfo hh.symm),
        alGet_alSet_ne _ _ _ _ hdq]
      rcases findUserDoc_cases _ _ _ _ hfound with ⟨_, hf1, _⟩ | ⟨_, _, _, hmiss⟩
      · exact absurd hf1 hfo
      · exact hmiss (by simp [hoe, ho, hdq])
  · rw [alSet_of_not_mem db.users newU _ H2, alDel, List.filter_append,
      List.filter_append]
    have hleft : ((db.users.filter (fun e => e.1 != found.1)).filter
        (fun e => isStrField e.2 USERS_ID_FIELD oldU)) = [] := by
      rw [List.filter_eq_nil_iff]
      intro e he hpe
      have hsplit := List.mem_filter.mp he
      have he4 : e ∈ db.users.filter (fun x =>
          decide (x.1 = oldU) || isStrField x.2 USERS_ID_FIELD oldU) :=
        List.mem_filter.mpr ⟨hsplit.1, by simp [hpe]⟩
      have h2m := two_mem_length _ e found he4 hfH4
        (fun hh => by rw [hh] at hsplit; simpa using hsplit.2)
      omega
    rw [hleft]
    have hKeep : ((newU : String) != found.1) = true := by
      simp only [bne_iff_ne, ne_eq]
      exact fun hh => hner hh.symm
    have hM : isStrField (setF found.2 USERS_ID_FIELD (JVal.str newU))
        USERS_ID_FIELD oldU = false :=
      isStrField_false_of_getF _ _ _ newU (alGet_alSet_self _ _ _)
        (fun hh => hdq hh.symm)
    simp [hKeep, hM]

/-- After a first run that migrated a document, the second run's
resolution finds nothing left to migrate. -/
theorem run2_resolver_none (oldU newU : String) (db : DB)
    (ho : jsTrim oldU = oldU) (hn : jsTrim newU = newU) (hne : newU ≠ "")
    (H1 : (db.users.map (fun e => e.1)).Nodup)
    (H2 : alGet db.users newU = none)
    (H3 : (db.users.filter (fun e => isStrField e.2 USERS_ID_FIELD newU)).length ≤ 1)
    (H4 : (db.users.filter (fun e =>
      decide (e.1 = oldU) || isStrField e.2 USERS_ID_FIELD oldU)).length ≤ 1)
    (found : String × DocData)
    (hfound : findUserDocToMigrate db.users
      (if oldU = "" then newU else oldU) newU = some found) :
    findUserDocToMigrate
      (alDel (alSet db.users newU (setF found.2 USERS_ID_FIELD (JVal.str newU)))
        found.1)
      (if oldU = "" then newU else oldU) newU = none := by
  by_cases hoe : oldU = ""
  · rw [if_pos hoe] at hfound ⊢
    exact run2_none_selfcase newU db hn hne H2 H3 found hfound
  · rw [if_neg hoe] at hfound ⊢
    by_cases hdq : oldU = newU
    · rw [hdq] at hfound ⊢
      exact run2_none_selfcase newU db hn hne H2 H3 found hfound
    · exact run2_none_necase oldU newU db ho hoe hdq H1 H2 H4 found hfound

/-- C2 (amended): for an initial state whose primary keys are unique, in
which nothing sits at the new key, at most one record carries the new id
field, and at most one record carries the old id (as key or id field),
running migrate twice yields the same final store state as running it
once, and the second run performs no writes and returns ok. -/
theorem c2_migrate_idempotent (oldU newU : String) (gen : Nat → String) (db : DB)
    (ho : jsTrim oldU = oldU) (hn : jsTrim newU = newU) (hne : newU ≠ "")
    (H1 : (db.users.map (fun e => e.1)).Nodup)
    (H2 : alGet db.users newU = none)
    (H3 : (db.users.filter (fun e => isStrField e.2 USERS_ID_FIELD newU)).length ≤ 1)
    (H4 : (db.users.filter (fun e =>
      decide (e.1 = oldU) || isStrField e.2 USERS_ID_FIELD oldU)).length ≤ 1) :
    (migrateUser oldU newU gen (migrateUser oldU newU gen db).db).db
      = (migrateUser oldU newU gen db).db ∧
    (migrateUser oldU newU gen (migrateUser oldU newU gen db).db).writes = 0 ∧
    (migrateUser oldU newU gen (migrateUser oldU newU gen db).db).ok = true := by
  rcases hfound : findUserDocToMigrate db.users
      (if jsTrim oldU = "" then newU else jsTrim oldU) newU with _ | found
  · rw [migrateUser_noop oldU newU gen db hn hne hfound]
    dsimp only
    rw [migrateUser_noop oldU newU gen db hn hne hfound]
    exact ⟨rfl, rfl, rfl⟩
  · have hget : alGet db.users found.1 = some found.2 := by
      rcases findUserDoc_cases _ _ _ _ hfound with ⟨_, hf1, hga⟩ | ⟨hmemf, _, _, _⟩
      · rw [hf1]
        exact hga
      · exact alGet_of_mem_nodup _ _ _ H1 hmemf
    have husers1 := migrateUser_users_swap oldU newU gen db hn hne found hfound hget H2
    have hnone2 : findUserDocToMigrate (migrateUser oldU newU gen db).db.users
        (if jsTrim oldU = "" then newU else jsTrim oldU) newU = none := by
      rw [husers1, ho]
      rw [ho] at hfound
      exact run2_resolver_none oldU newU db ho hn hne H1 H2 H3 H4 found hfound
    rw [migrateUser_noop oldU newU gen _ hn hne hnone2]
    exact ⟨rfl, rfl, rfl⟩

/-- Counterexample to C2 as stated: with two primary records carrying the
old id field, the second run migrates the second record — it performs a
write, and the dependent record's tag differs between the
one-run and the two-run final states. -/
theorem c2_counterexample :
    (migrateUser "old" "new" genW (migrateUser "old" "new" genW dbC2x).db).writes = 1 ∧
    alGet (getColl (migrateUser "old" "new" genW dbC2x).db "daily_tasks") "t1"
      = some [("userId", JVal.str "k2")] ∧
    alGet (getColl (migrateUser "old" "new" genW
        (migrateUser "old" "new" genW dbC2x).db).db "daily_tasks") "t1"
      = some [("userId", JVal.str "new")] ∧
    ([("userId", JVal.str "k2")] : DocData) ≠ [("userId", JVal.str "new")] := by
  refine ⟨rfl, rfl, rfl, ?_⟩
  simp

/-- Witness for the amended C2 at a concrete database satisfying the
uniqueness hypotheses. -/
theorem c2_witness :
    (migrateUser "g1" "a1" genW (migrateUser "g1" "a1" genW dbW2).db).db
      = (migrateUser "g1" "a1" genW dbW2).db ∧
    (migrateUser "g1" "a1" genW (migrateUser "g1" "a1" genW dbW2).db).writes = 0 ∧
    (migrateUser "g1" "a1" genW (migrateUser "g1" "a1" genW dbW2).db).ok = true := by
  exact c2_migrate_idempotent "g1" "a1" genW dbW2 (by decide) (by decide) (by decide)
    (by decide) rfl (by decide) (by decide)

/-! ### C9/C10: deletion lemmas -/

/-- Within the per-commit bound the batched delete loop succeeds and
deletes exactly the queued keys. -/
theorem deleteCollGo_ok (ks : List String) (c : Collection) (pending : List String)
    (cnt : Nat) (hcnt : pending.length = cnt) (hbnd : cnt + ks.length ≤ 500) :
    deleteCollGo ks c pending cnt false = ((pending ++ ks).foldl alDel c, none) := by
  induction ks generalizing c pending cnt with
  | nil =>
    simp only [deleteCollGo]
    by_cases h0 : cnt > 0
    · rw [if_pos h0]
      simp
    · rw [if_neg h0]
      have hp : pending = [] := List.eq_nil_of_length_eq_zero (by omega)
      rw [hp]
      simp
  | cons k rest ih =>
    simp only [deleteCollGo]
    by_cases hge : cnt + 1 >= 500
    · rw [if_pos hge]
      have hrl : rest.length = 0 := by
        simp only [List.length_cons] at hbnd
        omega
      have hrest : rest = [] := List.eq_nil_of_length_eq_zero hrl
      subst hrest
      simp only [deleteCollGo]
      rw [if_neg (by omega)]
    · rw [if_neg hge]
      have hstep := ih c (pending ++ [k]) (cnt + 1) (by simp [hcnt])
        (by simp only [List.length_cons] at hbnd; omega)
      rw [hstep, List.append_assoc]
      simp

/-- Folding deletions removes exactly the listed keys. -/
theorem mem_foldl_alDel {α : Type} (ks : List String) (c : List (String × α))
    (e : String × α) (h : e ∈ ks.foldl alDel c) : e ∈ c ∧ e.1 ∉ ks := by
  induction ks generalizing c with
  | nil => exact ⟨h, by simp⟩
  | cons k rest ih =>
    rw [List.foldl_cons] at h
    rcases ih (alDel c k) h with ⟨h1, h2⟩
    rcases (mem_alDel c k e).mp h1 with ⟨h3, h4⟩
    exact ⟨h3, by simp [h4, h2]⟩

/-- With no matching record anywhere, the deletion collection loop only
records zero counts. -/
theorem delCollLoop_empty (uid : String) (names : List String) (db : DB)
    (counts : List (String × Nat))
    (h : ∀ c ∈ names, (getColl db c).filter (fun e => isStrField e.2 "userId" uid) = []) :
    delCollLoop uid names db counts
      = (db, counts ++ names.map (fun c => (c, 0)), none) := by
  induction names generalizing counts with
  | nil => simp [delCollLoop]
  | cons c rest ih =>
    simp only [delCollLoop]
    rw [h c (List.mem_cons_self _ _)]
    rw [ih (counts ++ [(c, 0)]) (fun c' hc' => h c' (List.mem_cons_of_mem _ hc'))]
    simp

/-- Under the per-commit bound the deletion collection loop succeeds,
touches only the processed collections (clearing all their matches), and
leaves the users collection and storage alone. -/
theorem delCollLoop_ok (uid : String) (names : List String) (db : DB)
    (counts : List (String × Nat))
    (hbnd : ∀ c ∈ names,
      ((getColl db c).filter (fun e => isStrField e.2 "userId" uid)).length ≤ 500) :
    ∃ db2 counts2,
      delCollLoop uid names db counts = (db2, counts2, none) ∧
      db2.users = db.users ∧ db2.storage = db.storage ∧
      (∀ c', (getColl db2 c').filter (fun e => isStrField e.2 "userId" uid) = []
        ∨ getColl db2 c' = getColl db c') ∧
      (∀ c ∈ names, (getColl db2 c).filter (fun e => isStrField e.2 "userId" uid) = []) := by
  induction names generalizing db counts with
  | nil =>
    exact ⟨db, counts, rfl, rfl, rfl, fun c' => Or.inr rfl, by simp⟩
  | cons c rest ih =>
    simp only [delCollLoop]
    by_cases hie : ((getColl db c).filter
        (fun e => isStrField e.2 "userId" uid)).isEmpty = true
    · rw [if_pos hie]
      rcases ih db (counts ++ [(c, 0)])
          (fun c' hc' => hbnd c' (List.mem_cons_of_mem _ hc')) with
        ⟨db2, counts2, heq, hu, hs, hinv, hclr⟩
      refine ⟨db2, counts2, heq, hu, hs, hinv, ?_⟩
      intro c' hc'
      rcases List.mem_cons.mp hc' with rfl | hmem
      · rcases hinv c' with h1 | h1
        · exact h1
        · rw [h1]
          exact List.isEmpty_iff.mp hie
      · exact hclr c' hmem
    · rw [if_neg hie]
      have hgo := deleteCollGo_ok
        (((getColl db c).filter (fun e => isStrField e.2 "userId" uid)).map
          (fun e => e.1)) (getColl db c) [] 0 rfl
        (by simpa using hbnd c (List.mem_cons_self _ _))
      rw [hgo]
      dsimp only
      have hcleared : ∀ db' : DB, getColl db' c
            = ((((getColl db c).filter (fun e => isStrField e.2 "userId" uid)).map
                (fun e => e.1)).foldl alDel (getColl db c)) →
          (getColl db' c).filter (fun e => isStrField e.2 "userId" uid) = [] := by
        intro db' hdb'
        rw [hdb', List.filter_eq_nil_iff]
        intro e he hpe
        rcases mem_foldl_alDel _ _ e he with ⟨hmem, hnk⟩
        exact hnk (List.mem_map.mpr
          ⟨e, List.mem_filter.mpr ⟨hmem, hpe⟩, rfl⟩)
      have hbnd1 : ∀ c' ∈ rest,
          ((getColl (setCollD db c
              ((((getColl db c).filter (fun e => isStrField e.2 "userId" uid)).map
                (fun e => e.1)).foldl alDel (getColl db c))) c').filter
            (fun e => isStrField e.2 "userId" uid)).length ≤ 500 := by
        intro c' hc'
        by_cases hcc : c' = c
        · subst hcc
          have := hcleared (setCollD db c'
              ((((getColl db c').filter (fun e => isStrField e.2 "userId" uid)).map
                (fun e => e.1)).foldl alDel (getColl db c'))) (by
            simp only [getColl, setCollD]
            rw [alGet_alSet_self]
            rfl)
          rw [this]
          simp
        · simp only [getColl, setCollD]
          rw [alGet_alSet_ne _ _ _ _ hcc]
          exact hbnd c' (List.mem_cons_of_mem _ hc')
      rcases ih (setCollD db c
          ((((getColl db c).filter (fun e => isStrField e.2 "userId" uid)).map
            (fun e => e.1)).foldl alDel (getColl db c)))
          (counts ++ [(c, ((getColl db c).filter
            (fun e => isStrField e.2 "userId" uid)).length)]) hbnd1 with
        ⟨db2, counts2, heq, hu, hs, hinv, hclr⟩
      refine ⟨db2, counts2, heq, by rw [hu]; rfl, by rw [hs]; rfl, ?_, ?_⟩
      · intro c'
        rcases hinv c' with h1 | h1
        · exact Or.inl h1
        · by_cases hcc : c' = c
          · subst hcc
            refine Or.inl ?_
            refine hcleared db2 ?_
            rw [h1]
            simp only [getColl, setCollD]
            rw [alGet_alSet_self]
            rfl
          · refine Or.inr ?_
            rw [h1]
            simp only [getColl, setCollD]
            rw [alGet_alSet_ne _ _ _ _ hcc]
      · intro c' hc'
        rcases List.mem_cons.mp hc' with rfl | hmem
        · rcases hinv c' with h1 | h1
          · exact h1
          · refine hcleared db2 ?_
            rw [h1]
            simp only [getColl, setCollD]
            rw [alGet_alSet_self]
            rfl
        · exact hclr c' hmem

/-- `deleteStorageForUser` unfolded over the two concrete folders. -/
theorem deleteStorageForUser_eq (uid : String) (st : Storage) :
    deleteStorageForUser uid st =
      ( (st.filter (fun e =>
            !strHasPfx ("selfies" ++ "/" ++ uid ++ "/") e.1)).filter
          (fun e => !strHasPfx ("meals" ++ "/" ++ uid ++ "/") e.1),
        0 + (st.filter (fun e =>
            strHasPfx ("selfies" ++ "/" ++ uid ++ "/") e.1)).length
          + ((st.filter (fun e =>
              !strHasPfx ("selfies" ++ "/" ++ uid ++ "/") e.1)).filter
            (fun e => strHasPfx ("meals" ++ "/" ++ uid ++ "/") e.1)).length ) :=
  rfl

/-- When neither folder prefix matches any blob, the storage purge is a
no-op counting zero. -/
theorem deleteStorageForUser_empty (uid : String) (st : Storage)
    (h : ∀ f ∈ STORAGE_FOLDERS,
      st.filter (fun e => strHasPfx (f ++ "/" ++ uid ++ "/") e.1) = []) :
    deleteStorageForUser uid st = (st, 0) := by
  have h1 := h "selfies" (by simp [STORAGE_FOLDERS])
  have h2 := h "meals" (by simp [STORAGE_FOLDERS])
  have hn1 : st.filter (fun e =>
      !strHasPfx ("selfies" ++ "/" ++ uid ++ "/") e.1) = st := by
    apply List.filter_eq_self.mpr
    intro a ha
    cases hb : strHasPfx ("selfies" ++ "/" ++ uid ++ "/") a.1
    · rfl
    · exact absurd hb (by
        have := List.filter_eq_nil_iff.mp h1 a ha
        simpa using this)
  have hn2 : st.filter (fun e =>
      !strHasPfx ("meals" ++ "/" ++ uid ++ "/") e.1) = st := by
    apply List.filter_eq_self.mpr
    intro a ha
    cases hb : strHasPfx ("meals" ++ "/" ++ uid ++ "/") a.1
    · rfl
    · exact absurd hb (by
        have := List.filter_eq_nil_iff.mp h2 a ha
        simpa using this)
  rw [deleteStorageForUser_eq, hn1, hn2, h1, h2]
  rfl

/-- After a storage purge no blob under either folder prefix remains. -/
theorem deleteStorageForUser_clears (uid : String) (st : Storage) :
    ∀ f ∈ STORAGE_FOLDERS,
      (deleteStorageForUser uid st).1.filter
        (fun e => strHasPfx (f ++ "/" ++ uid ++ "/") e.1) = [] := by
  intro f hf
  rw [deleteStorageForUser_eq]
  dsimp only
  rcases (show f = "selfies" ∨ f = "meals" by
      simpa [STORAGE_FOLDERS] using hf) with rfl | rfl
  · rw [List.filter_eq_nil_iff]
    intro a ha hc
    have hb := (List.mem_filter.mp (List.mem_filter.mp ha).1).2
    rw [hc] at hb
    simp at hb
  · rw [List.filter_eq_nil_iff]
    intro a ha hc
    have hb := (List.mem_filter.mp ha).2
    rw [hc] at hb
    simp at hb

/-- The head of a non-empty list is a member. -/
theorem head?_some_mem {α : Type} (l : List α) (a : α) (h : l.head? = some a) :
    a ∈ l := by
  cases l with
  | nil => exact absurd h (by simp)
  | cons x t =>
    have hx : x = a := by simpa using h
    rw [← hx]
    exact List.mem_cons_self x t

/-- A successful association-list lookup exhibits a member. -/
theorem alGet_some_mem {α : Type} (l : List (String × α)) (k : String) (v : α)
    (h : alGet l k = some v) : (k, v) ∈ l := by
  induction l with
  | nil => exact absurd h (by simp [alGet])
  | cons e rest ih =>
    obtain ⟨a, b⟩ := e
    by_cases hk : a = k
    · subst hk
      have hb : b = v := by simpa [alGet] using h
      rw [← hb]
      exact List.mem_cons_self _ _
    · have h' : alGet rest k = some v := by simpa [alGet, hk] using h
      exact List.mem_cons_of_mem _ (ih h')

/-- Deleting any key preserves the absence of another key. -/
theorem alGet_alDel_none {α : Type} (l : List (String × α)) (k k' : String)
    (h : alGet l k = none) : alGet (alDel l k') k = none := by
  rw [alGet_eq_none_iff] at h ⊢
  intro e he
  exact h e ((mem_alDel _ _ _).mp he).1

/-- If at most one record carries the identifier (as its key or in its
`id` field), deleting a carrier's key leaves no `id`-field carrier. -/
theorem del_carrier_clean (users : List (String × DocData)) (uid : String)
    (e0 : String × DocData) (he0 : e0 ∈ users)
    (hp0 : (decide (e0.1 = uid) || isStrField e0.2 USERS_ID_FIELD uid) = true)
    (Hc : (users.filter (fun e =>
      decide (e.1 = uid) || isStrField e.2 USERS_ID_FIELD uid)).length ≤ 1) :
    (alDel users e0.1).filter
      (fun e => isStrField e.2 USERS_ID_FIELD uid) = [] := by
  rw [List.filter_eq_nil_iff]
  intro e he hpe
  rcases (mem_alDel _ _ _).mp he with ⟨heu, hne⟩
  have h1 : e ∈ users.filter (fun e =>
      decide (e.1 = uid) || isStrField e.2 USERS_ID_FIELD uid) :=
    List.mem_filter.mpr ⟨heu, by rw [hpe]; simp⟩
  have h0 : e0 ∈ users.filter (fun e =>
      decide (e.1 = uid) || isStrField e.2 USERS_ID_FIELD uid) :=
    List.mem_filter.mpr ⟨he0, hp0⟩
  have hne0 : e ≠ e0 := fun h => hne (by rw [h])
  have := two_mem_length _ _ _ h1 h0 hne0
  omega

/-- Writing one dependent collection leaves the others readable as
before. -/
theorem getColl_setCollD_ne (db : DB) (c c' : String) (x : Collection)
    (h : c' ≠ c) : getColl (setCollD db c x) c' = getColl db c' := by
  simp only [getColl, setCollD]
  rw [alGet_alSet_ne _ _ _ _ h]

/-- Every generated dependent record matches the ownership query. -/
theorem mkDepDocs_filter_all (n : Nat) :
    (mkDepDocs n).filter (fun e => isStrField e.2 "userId" "g1")
      = mkDepDocs n := by
  apply List.filter_eq_self.mpr
  intro a ha
  rcases List.mem_map.mp ha with ⟨i, _, hi⟩
  rw [← hi]
  rfl

/-- The generated dependent collection has the prescribed size. -/
theorem mkDepDocs_length (n : Nat) : (mkDepDocs n).length = n := by
  simp [mkDepDocs]

/-- Under the per-collection batch bound the deletion tail succeeds: it
deletes exactly the resolved record's key, clears every covered dependent
collection, and leaves no blob under either storage folder prefix. -/
theorem delTail_ok (uid : String) (db0 : DB) (s1 : Storage)
    (oref : Option (String × DocData))
    (hb : ∀ c ∈ COLLECTIONS_TO_CLEAN,
      ((getColl db0 c).filter (fun e => isStrField e.2 "userId" uid)).length
        ≤ 500) :
    (delTail uid { users := db0.users, colls := db0.colls, storage := s1 }
        oref).ok = true ∧
    (delTail uid { users := db0.users, colls := db0.colls, storage := s1 }
        oref).error = none ∧
    (delTail uid { users := db0.users, colls := db0.colls, storage := s1 }
        oref).db.users
      = (match oref with
         | some kd => alDel db0.users kd.1
         | none => db0.users) ∧
    (∀ c ∈ COLLECTIONS_TO_CLEAN,
      (getColl (delTail uid
          { users := db0.users, colls := db0.colls, storage := s1 } oref).db
        c).filter (fun e => isStrField e.2 "userId" uid) = []) ∧
    (∀ f ∈ STORAGE_FOLDERS,
      (delTail uid { users := db0.users, colls := db0.colls, storage := s1 }
          oref).db.storage.filter
        (fun e => strHasPfx (f ++ "/" ++ uid ++ "/") e.1) = []) := by
  obtain ⟨db2, counts2, heq, hu, hs, hinv, hclr⟩ :=
    delCollLoop_ok uid COLLECTIONS_TO_CLEAN
      { users := db0.users, colls := db0.colls, storage := s1 } []
      (fun c hc => hb c hc)
  simp only [delTail]
  rw [heq]
  dsimp only
  refine ⟨rfl, rfl, ?_, ?_, ?_⟩
  · cases oref with
    | some kd =>
      dsimp only
      rw [hu]
    | none =>
      dsimp only
      rw [hu]
  · intro c hc
    exact hclr c hc
  · intro f hf
    exact deleteStorageForUser_clears uid db2.storage f hf

/-- With nothing to purge anywhere and no resolved record, the deletion
tail is a successful no-op recording zero counts. -/
theorem delTail_empty (uid : String) (db1 : DB)
    (hcoll : ∀ c ∈ COLLECTIONS_TO_CLEAN,
      (getColl db1 c).filter (fun e => isStrField e.2 "userId" uid) = [])
    (hst : ∀ f ∈ STORAGE_FOLDERS,
      db1.storage.filter (fun e => strHasPfx (f ++ "/" ++ uid ++ "/") e.1)
        = []) :
    delTail uid db1 none
      = { ok := true, error := none, usersDeleted := 0,
          collCounts := COLLECTIONS_TO_CLEAN.map (fun c => (c, 0)),
          storageDeleted := 0, db := db1 } := by
  simp only [delTail]
  rw [delCollLoop_empty uid COLLECTIONS_TO_CLEAN db1 [] hcoll]
  dsimp only
  rw [deleteStorageForUser_empty uid db1.storage hst]
  rfl

/-- Queueing more keys than fit one commit on the reused batch raises the
committed-batch error. -/
theorem deleteCollGo_err (ks : List String) (c : Collection)
    (pending : List String) (cnt : Nat) (hcnt : cnt < 500)
    (hlen : 500 < cnt + ks.length) :
    (deleteCollGo ks c pending cnt false).2
      = some "Cannot modify a WriteBatch that has been committed." := by
  induction ks generalizing c pending cnt with
  | nil =>
    simp at hlen
    omega
  | cons k rest ih =>
    simp only [deleteCollGo]
    by_cases h5 : cnt + 1 ≥ 500
    · rw [if_pos h5]
      cases rest with
      | nil =>
        exfalso
        simp at hlen
        omega
      | cons x xs => rfl
    · rw [if_neg h5]
      exact ih _ _ _ (by omega)
        (by simp only [List.length_cons] at hlen ⊢; omega)

/-- A collection with no matching records contributes a zero count and
leaves the store untouched. -/
theorem delCollLoop_step_empty (uid c : String) (rest : List String) (db : DB)
    (counts : List (String × Nat))
    (h : (getColl db c).filter (fun e => isStrField e.2 "userId" uid) = []) :
    delCollLoop uid (c :: rest) db counts
      = delCollLoop uid rest db (counts ++ [(c, 0)]) := by
  simp only [delCollLoop]
  rw [h]
  rfl

/-- A collection whose matches fit one commit is cleared and counted. -/
theorem delCollLoop_step_ok (uid c : String) (rest : List String) (db : DB)
    (counts : List (String × Nat))
    (hne : (getColl db c).filter (fun e => isStrField e.2 "userId" uid) ≠ [])
    (hlen : ((getColl db c).filter
      (fun e => isStrField e.2 "userId" uid)).length ≤ 500) :
    delCollLoop uid (c :: rest) db counts
      = delCollLoop uid rest
          (setCollD db c
            ((((getColl db c).filter (fun e => isStrField e.2 "userId" uid)).map
              (fun e => e.1)).foldl alDel (getColl db c)))
          (counts ++ [(c, ((getColl db c).filter
            (fun e => isStrField e.2 "userId" uid)).length)]) := by
  simp only [delCollLoop]
  have hie : ¬(((getColl db c).filter
      (fun e => isStrField e.2 "userId" uid)).isEmpty = true) := by
    intro hh
    exact hne (List.isEmpty_iff.mp hh)
  rw [if_neg hie]
  have hgo := deleteCollGo_ok
    (((getColl db c).filter (fun e => isStrField e.2 "userId" uid)).map
      (fun e => e.1)) (getColl db c) [] 0 rfl (by simpa using hlen)
  rw [hgo]
  rfl

/-- A collection with more than 500 matches aborts the loop with the
committed-batch error, keeping the counts recorded so far. -/
theorem delCollLoop_step_err (uid c : String) (rest : List String) (db : DB)
    (counts : List (String × Nat))
    (hlen : 500 < ((getColl db c).filter
      (fun e => isStrField e.2 "userId" uid)).length) :
    ∃ cx, delCollLoop uid (c :: rest) db counts
      = (setCollD db c cx, counts,
         some "Cannot modify a WriteBatch that has been committed.") := by
  simp only [delCollLoop]
  have hie : ¬(((getColl db c).filter
      (fun e => isStrField e.2 "userId" uid)).isEmpty = true) := by
    intro hh
    rw [List.isEmpty_iff.mp hh] at hlen
    simp at hlen
  rw [if_neg hie]
  rcases hpair : deleteCollGo
      (((getColl db c).filter (fun e => isStrField e.2 "userId" uid)).map
        (fun e => e.1)) (getColl db c) [] 0 false with ⟨c2, oe⟩
  have h2 := deleteCollGo_err
    (((getColl db c).filter (fun e => isStrField e.2 "userId" uid)).map
      (fun e => e.1)) (getColl db c) [] 0 (by omega) (by simpa using hlen)
  rw [hpair] at h2
  dsimp only at h2
  rw [hpair, h2]
  exact ⟨c2, rfl⟩

/-- When a later dependent collection holds more than 500 matches, the
deletion tail aborts with the committed-batch error while keeping the
count already recorded for the first collection. -/
theorem delTail_err (uid : String) (db0 : DB) (s1 : Storage)
    (oref : Option (String × DocData))
    (hd : ((getColl db0 "daily_tasks").filter
      (fun e => isStrField e.2 "userId" uid)).length ≤ 500)
    (hf : 500 < ((getColl db0 "face-analysis").filter
      (fun e => isStrField e.2 "userId" uid)).length) :
    ∃ dbx, delTail uid
        { users := db0.users, colls := db0.colls, storage := s1 } oref
      = { ok := false,
          error := some "Cannot modify a WriteBatch that has been committed.",
          usersDeleted := 0,
          collCounts := [("daily_tasks", ((getColl db0 "daily_tasks").filter
            (fun e => isStrField e.2 "userId" uid)).length)],
          storageDeleted := 0, db := dbx } := by
  set d1 : DB := { users := db0.users, colls := db0.colls, storage := s1 }
  have hd' : ((getColl d1 "daily_tasks").filter
      (fun e => isStrField e.2 "userId" uid)).length ≤ 500 := hd
  have hf' : 500 < ((getColl d1 "face-analysis").filter
      (fun e => isStrField e.2 "userId" uid)).length := hf
  simp only [delTail]
  rw [show COLLECTIONS_TO_CLEAN = "daily_tasks" :: "face-analysis" ::
      ["meal-analysis", "videos", "reel_progress", "reels"] from rfl]
  by_cases h1 : (getColl d1 "daily_tasks").filter
      (fun e => isStrField e.2 "userId" uid) = []
  · rw [delCollLoop_step_empty uid "daily_tasks" _ d1 [] h1]
    obtain ⟨cx, hcx⟩ := delCollLoop_step_err uid "face-analysis"
      ["meal-analysis", "videos", "reel_progress", "reels"] d1 _ hf'
    rw [hcx]
    have h10 : (getColl db0 "daily_tasks").filter
        (fun e => isStrField e.2 "userId" uid) = [] := h1
    rw [h10]
    exact ⟨setCollD d1 "face-analysis" cx, rfl⟩
  · rw [delCollLoop_step_ok uid "daily_tasks" _ d1 [] h1 hd']
    have hf2 : 500 < ((getColl (setCollD d1 "daily_tasks"
        ((((getColl d1 "daily_tasks").filter
            (fun e => isStrField e.2 "userId" uid)).map
          (fun e => e.1)).foldl alDel (getColl d1 "daily_tasks")))
        "face-analysis").filter
        (fun e => isStrField e.2 "userId" uid)).length := by
      rw [getColl_setCollD_ne _ _ _ _ (by decide)]
      exact hf'
    obtain ⟨cx, hcx⟩ := delCollLoop_step_err uid "face-analysis"
      ["meal-analysis", "videos", "reel_progress", "reels"] _ _ hf2
    rw [hcx]
    exact ⟨_, rfl⟩

/-- Under the identifier-uniqueness and batch-bound hypotheses a first
delete succeeds and leaves a state with no record carrying the
identifier, no matching dependent records, and no blobs under the two
folder prefixes. -/
theorem deleteUser_run1 (uid : String) (db0 : DB)
    (hv : jsTrim uid = uid) (hne : uid ≠ "")
    (Hc : (db0.users.filter (fun e =>
      decide (e.1 = uid) || isStrField e.2 USERS_ID_FIELD uid)).length ≤ 1)
    (hb : ∀ c ∈ COLLECTIONS_TO_CLEAN,
      ((getColl db0 c).filter (fun e => isStrField e.2 "userId" uid)).length
        ≤ 500) :
    (deleteUser uid db0).ok = true ∧
    alGet (deleteUser uid db0).db.users uid = none ∧
    (deleteUser uid db0).db.users.filter
      (fun e => isStrField e.2 USERS_ID_FIELD uid) = [] ∧
    (∀ c ∈ COLLECTIONS_TO_CLEAN,
      (getColl (deleteUser uid db0).db c).filter
        (fun e => isStrField e.2 "userId" uid) = []) ∧
    (∀ f ∈ STORAGE_FOLDERS,
      (deleteUser uid db0).db.storage.filter
        (fun e => strHasPfx (f ++ "/" ++ uid ++ "/") e.1) = []) := by
  have hcond : ¬((decide (uid = "") || decide (uid = "")) = true) := by
    simp [hne]
  simp only [deleteUser, hv]
  rw [if_neg hcond]
  cases hku : alGet db0.users uid with
  | some d =>
    dsimp only
    obtain ⟨hok, herr, hus, hcls, hstr⟩ := delTail_ok uid db0 _ (some (uid, d)) hb
    refine ⟨hok, ?_, ?_, hcls, hstr⟩
    · rw [hus]
      exact alGet_alDel_self _ _
    · rw [hus]
      exact del_carrier_clean db0.users uid (uid, d) (alGet_some_mem _ _ _ hku)
        (by simp) Hc
  | none =>
    dsimp only
    cases hfd : (db0.users.filter
        (fun e => isStrField e.2 USERS_ID_FIELD uid)).head? with
    | some e0 =>
      dsimp only
      have he0 := head?_some_mem _ _ hfd
      obtain ⟨he0u, hpe0⟩ := List.mem_filter.mp he0
      obtain ⟨hok, herr, hus, hcls, hstr⟩ := delTail_ok uid db0 _ (some e0) hb
      refine ⟨hok, ?_, ?_, hcls, hstr⟩
      · rw [hus]
        exact alGet_alDel_none _ _ _ hku
      · rw [hus]
        exact del_carrier_clean db0.users uid e0 he0u
          (by rw [Bool.or_eq_true]; exact Or.inr hpe0) Hc
    | none =>
      dsimp only
      obtain ⟨hok, herr, hus, hcls, hstr⟩ := delTail_ok uid db0 _ none hb
      refine ⟨hok, ?_, ?_, hcls, hstr⟩
      · rw [hus]
        exact hku
      · rw [hus]
        exact List.head?_eq_none_iff.mp hfd

/-- On a state carrying nothing for the identifier, `deleteUser` is a
successful no-op with all-zero counters. -/
theorem deleteUser_empty_run (uid : String) (db0 : DB)
    (hv : jsTrim uid = uid) (hne : uid ≠ "")
    (hkey : alGet db0.users uid = none)
    (hfield : db0.users.filter
      (fun e => isStrField e.2 USERS_ID_FIELD uid) = [])
    (hcoll : ∀ c ∈ COLLECTIONS_TO_CLEAN,
      (getColl db0 c).filter (fun e => isStrField e.2 "userId" uid) = [])
    (hst : ∀ f ∈ STORAGE_FOLDERS,
      db0.storage.filter (fun e => strHasPfx (f ++ "/" ++ uid ++ "/") e.1)
        = []) :
    deleteUser uid db0
      = { ok := true, error := none, usersDeleted := 0,
          collCounts := COLLECTIONS_TO_CLEAN.map (fun c => (c, 0)),
          storageDeleted := 0, db := db0 } := by
  have hcond : ¬((decide (uid = "") || decide (uid = "")) = true) := by
    simp [hne]
  simp only [deleteUser, hv]
  rw [if_neg hcond, hkey]
  dsimp only
  rw [hfield]
  simp only [List.head?]
  exact delTail_empty uid
    { users := db0.users, colls := db0.colls, storage := db0.storage }
    hcoll hst

/-! ### C9: deletion of an empty state and deletion idempotence -/

/-- C9 (counterexample to the claim as stated): after a successful
`deleteUser` run, an immediately repeated run need not report all-zero
counts — with two records carrying the same `id` field, the second run
resolves the remaining carrier and deletes (and counts) it too. -/
theorem c9_counterexample :
    (deleteUser "u1" dbC9x).ok = true ∧
    (deleteUser "u1" (deleteUser "u1" dbC9x).db).usersDeleted = 1 :=
  ⟨rfl, rfl⟩

/-- C9 (amended): for a validated identifier, (a) on a state carrying no
primary record, no dependent records and no blobs, `deleteUser` succeeds
with all-zero counts and an unchanged store, exactly as claimed; and
(b) provided at most one record carries the identifier (as its key or in
its `id` field) and every covered dependent collection holds at most 500
matching records, a first `deleteUser` succeeds and an immediately
repeated `deleteUser` succeeds with all-zero counts and an unchanged
store. -/
theorem c9_delete_idempotent (uid : String) (db : DB)
    (hv : jsTrim uid = uid) (hne : uid ≠ "")
    (Hc : (db.users.filter (fun e =>
      decide (e.1 = uid) || isStrField e.2 USERS_ID_FIELD uid)).length ≤ 1)
    (hb : ∀ c ∈ COLLECTIONS_TO_CLEAN,
      ((getColl db c).filter (fun e => isStrField e.2 "userId" uid)).length
        ≤ 500) :
    ((alGet db.users uid = none ∧
      db.users.filter (fun e => isStrField e.2 USERS_ID_FIELD uid) = [] ∧
      (∀ c ∈ COLLECTIONS_TO_CLEAN,
        (getColl db c).filter (fun e => isStrField e.2 "userId" uid) = []) ∧
      (∀ f ∈ STORAGE_FOLDERS,
        db.storage.filter (fun e => strHasPfx (f ++ "/" ++ uid ++ "/") e.1)
          = [])) →
      deleteUser uid db
        = { ok := true, error := none, usersDeleted := 0,
            collCounts := COLLECTIONS_TO_CLEAN.map (fun c => (c, 0)),
            storageDeleted := 0, db := db }) ∧
    (deleteUser uid db).ok = true ∧
    deleteUser uid (deleteUser uid db).db
      = { ok := true, error := none, usersDeleted := 0,
          collCounts := COLLECTIONS_TO_CLEAN.map (fun c => (c, 0)),
          storageDeleted := 0, db := (deleteUser uid db).db } := by
  obtain ⟨hok, hku, hfld, hcls, hstr⟩ := deleteUser_run1 uid db hv hne Hc hb
  refine ⟨?_, hok, ?_⟩
  · rintro ⟨h1, h2, h3, h4⟩
    exact deleteUser_empty_run uid db hv hne h1 h2 h3 h4
  · exact deleteUser_empty_run uid _ hv hne hku hfld hcls hstr

/-- Witness for the amended C9 on the empty store. -/
theorem c9_witness :
    deleteUser "u1" dbW9
      = { ok := true, error := none, usersDeleted := 0,
          collCounts := COLLECTIONS_TO_CLEAN.map (fun c => (c, 0)),
          storageDeleted := 0, db := dbW9 } ∧
    (deleteUser "u1" dbW9).ok = true ∧
    deleteUser "u1" (deleteUser "u1" dbW9).db
      = { ok := true, error := none, usersDeleted := 0,
          collCounts := COLLECTIONS_TO_CLEAN.map (fun c => (c, 0)),
          storageDeleted := 0, db := (deleteUser "u1" dbW9).db } := by
  have h := c9_delete_idempotent "u1" dbW9 (by decide) (by decide) (by decide)
    (by decide)
  exact ⟨h.1 ⟨rfl, rfl, fun c hc => rfl, fun f hf => rfl⟩, h.2.1, h.2.2⟩

/-! ### C10: a partial failure reports the counts accumulated so far -/

/-- C10: when a validated delete fails partway — here the committed-batch
exception raised once a dependent collection holds more than 500 matches
— the outcome is `ok:false` carrying the underlying error message
together with the counts accumulated for the steps that completed before
the failure (the first collection's recorded count), with the
not-yet-reached user and storage counters at zero. -/
theorem c10_failure_reports_partial_counts (uid : String) (db0 : DB)
    (hv : jsTrim uid = uid) (hne : uid ≠ "")
    (hd : ((getColl db0 "daily_tasks").filter
      (fun e => isStrField e.2 "userId" uid)).length ≤ 500)
    (hf : 500 < ((getColl db0 "face-analysis").filter
      (fun e => isStrField e.2 "userId" uid)).length) :
    (deleteUser uid db0).ok = false ∧
    (deleteUser uid db0).error
      = some "Cannot modify a WriteBatch that has been committed." ∧
    (deleteUser uid db0).collCounts
      = [("daily_tasks", ((getColl db0 "daily_tasks").filter
          (fun e => isStrField e.2 "userId" uid)).length)] ∧
    (deleteUser uid db0).usersDeleted = 0 ∧
    (deleteUser uid db0).storageDeleted = 0 := by
  have hcond : ¬((decide (uid = "") || decide (uid = "")) = true) := by
    simp [hne]
  simp only [deleteUser, hv]
  rw [if_neg hcond]
  obtain ⟨dbx, hdt⟩ := delTail_err uid db0 _ _ hd hf
  rw [hdt]
  exact ⟨rfl, rfl, rfl, rfl, rfl⟩

set_option maxRecDepth 4000 in
/-- Witness for C10 at a concrete store: one deletable record in
`daily_tasks`, 501 matches in `face-analysis`. -/
theorem c10_witness :
    (deleteUser "g1" dbC10).ok = false ∧
    (deleteUser "g1" dbC10).error
      = some "Cannot modify a WriteBatch that has been committed." ∧
    (deleteUser "g1" dbC10).collCounts = [("daily_tasks", 1)] ∧
    (deleteUser "g1" dbC10).usersDeleted = 0 ∧
    (deleteUser "g1" dbC10).storageDeleted = 0 := by
  have h := c10_failure_reports_partial_counts "g1" dbC10 (by decide)
    (by decide)
    (by rw [show getColl dbC10 "daily_tasks" = mkDepDocs 1 from rfl,
        mkDepDocs_filter_all, mkDepDocs_length]; decide)
    (by rw [show getColl dbC10 "face-analysis" = mkDepDocs 501 from rfl,
        mkDepDocs_filter_all, mkDepDocs_length]; decide)
  refine ⟨h.1, h.2.1, ?_, h.2.2.2.1, h.2.2.2.2⟩
  rw [h.2.2.1]
  rw [show getColl dbC10 "daily_tasks" = mkDepDocs 1 from rfl,
    mkDepDocs_filter_all, mkDepDocs_length]
